import Mathlib

/-!
image-pull-creds: the reconciliation routine of `internal/service/service.go`

A shallow embedding of `SetupImagePullCreds`, `ensureImagePullSecret`,
`newClient`, `handleError` and `NewService`, in explicit state-passing style.

* Go values `(T, error)` returned by collaborators are `Result T`.
* What a Go function of this package does is an `Outcome`: it returns normally,
  returns a non-nil `error`, or panics at run time.
* `kubernetes.Interface` and `Provider` are interfaces in the source; here they are
  records of state transformers over an arbitrary world type `σ`.
* `Client.traced` wraps a client so that every call and its result is appended to a
  log; statements about "calls issued" are statements about that log.
* The cluster behind the client is not part of the repository.  Where a claim speaks
  about the cluster state, `Cluster` with `storeClient` is used: a keyed object
  store with a schedule of injected failures.
-/

namespace ImagePullCreds

/-! ## Go-level data -/

/-- A Go `[]byte`. -/
abbrev Bytes := List Nat

/-- A Go `error` value: either an error produced by a collaborator (the cluster client,
the provider, the client-construction helpers), or `fmt.Errorf(msg + ": %w", cause)`. -/
inductive Error where
  | collab (notFound : Bool) (text : String)
  | errorf (msg : String) (cause : Error)
  deriving DecidableEq, Repr

/-- `kerrors.IsNotFound`: the status reason of the error, looked up through `%w` wrappers. -/
def IsNotFound : Error → Bool
  | .collab nf _ => nf
  | .errorf _ cause => IsNotFound cause

/-- A Go pair `(T, error)` as returned by a collaborator. -/
inductive Result (α : Type) where
  | ok (v : α)
  | err (e : Error)
  deriving DecidableEq, Repr

/-- What a call of a function of this package does. -/
inductive Outcome (α : Type) where
  | ok (v : α)
  | error (e : Error)
  | panic (msg : String)
  deriving DecidableEq, Repr

/-- Entries of a non-nil Go `map[string][]byte`. -/
abbrev Entries := List (String × Bytes)

/-- Go `m[k]` read. -/
def mapLookup : Entries → String → Option Bytes
  | [], _ => none
  | (k', v) :: rest, k => if k' = k then some v else mapLookup rest k

/-- Go `m[k] = v` on a non-nil map: overwrite the entry of `k`, or add one. -/
def mapAssign : Entries → String → Bytes → Entries
  | [], k, v => [(k, v)]
  | (k', v') :: rest, k, v =>
    if k' = k then (k, v) :: rest else (k', v') :: mapAssign rest k v

/-- `corev1.LocalObjectReference`. -/
structure LocalObjectReference where
  Name : String
  deriving DecidableEq, Repr

/-- `corev1.Namespace` (its name and labels). -/
structure Namespace where
  Name : String
  Labels : List (String × String) := []
  deriving DecidableEq, Repr

/-- `corev1.Secret`: object metadata, `Type` (here `Type_`) and `Data`.
`Data = none` is the nil map, which is what a secret without data entries decodes to. -/
structure Secret where
  Name : String
  Namespace : String
  Labels : List (String × String) := []
  Annotations : List (String × String) := []
  Type_ : String := ""
  Data : Option Entries := none
  deriving DecidableEq, Repr

/-- `corev1.ServiceAccount`. -/
structure ServiceAccount where
  Name : String
  Namespace : String
  Labels : List (String × String) := []
  Secrets : List String := []
  ImagePullSecrets : List LocalObjectReference := []
  AutomountServiceAccountToken : Option Bool := none
  deriving DecidableEq, Repr

/-- `rest.Config`. -/
structure RestConfig where
  Host : String
  deriving DecidableEq, Repr

/-- `pbv1.SetupImagePullCredsReqeust`. -/
structure SetupImagePullCredsReqeust where
  Namespaces : List String
  deriving DecidableEq, Repr

/-- `pbv1.SetupImagePUllCredsResponse`. -/
structure SetupImagePUllCredsResponse where
  deriving DecidableEq, Repr

/-! ## Collaborators -/

/-- The part of `kubernetes.Interface` the service calls (`client.CoreV1()...`). -/
structure Client (σ : Type) where
  NamespacesList : σ → Result (List Namespace) × σ
  SecretsGet : String → String → σ → Result Secret × σ
  SecretsCreate : String → Secret → σ → Result Secret × σ
  SecretsUpdate : String → Secret → σ → Result Secret × σ
  ServiceAccountsList : String → σ → Result (List ServiceAccount) × σ
  ServiceAccountsUpdate : String → ServiceAccount → σ → Result ServiceAccount × σ

/-- The `Provider` interface of `provider.go`. -/
structure Provider (σ : Type) where
  CreateDockerCFG : σ → Result Bytes × σ

/-- The package-level helpers `newClient` calls: `rest.InClusterConfig`,
`clientcmd.BuildConfigFromFlags`, the default kubeconfig file name and
`kubernetes.NewForConfig`. -/
structure ClientEnv (σ : Type) where
  InClusterConfig : Result RestConfig
  GetDefaultFilename : String
  BuildConfigFromFlags : String → String → Result RestConfig
  NewForConfig : RestConfig → Result (Client σ)

/-- `set.Set[string]` of `hlp/set`. -/
structure StringSet where
  items : List String
  deriving DecidableEq, Repr

/-- `set.New(items...)`. -/
def StringSet.New (items : List String) : StringSet := ⟨items⟩

/-- `(*set.Set).Contains`. -/
def StringSet.Contains (s : StringSet) (name : String) : Bool := s.items.contains name

/-! ## The service (`service.go`) -/

def imagePullSecretName : String := "auto-image-pull-creds"

structure ServiceConfig (σ : Type) where
  Provider : Provider σ

structure Service (σ : Type) where
  provider : Provider σ
  ignoredNamespaces : StringSet

def NewService {σ : Type} (conf : ServiceConfig σ) : Service σ :=
  let ignoredNamespaces := StringSet.New ["kube-system", "kube-node-lease", "kube-public"]
  { provider := conf.Provider, ignoredNamespaces := ignoredNamespaces }

/-- `fmt.Errorf(msg + ": %w", err)`. -/
def Errorf (msg : String) (err : Error) : Error := .errorf msg err

/-- `handleError`: the message is chosen and logged; the error is returned as it came. -/
def handleError (err : Error) (msg : String) : Error :=
  let str := if msg != "" then msg else "an error occurred"
  let _logged := str
  err

def newClient {σ : Type} (env : ClientEnv σ) : Result (Client σ) :=
  let cfg : Result RestConfig :=
    match env.InClusterConfig with
    | .ok cfg => .ok cfg
    | .err _ =>
      match env.BuildConfigFromFlags "" env.GetDefaultFilename with
      | .err err => .err (Errorf "error reading out-of-cluster config" err)
      | .ok c => .ok c
  match cfg with
  | .err e => .err e
  | .ok cfg =>
    match env.NewForConfig cfg with
    | .err err => .err (Errorf "error getting clientset" err)
    | .ok clientset => .ok clientset

def ensureImagePullSecret {σ : Type} (client : Client σ) (namespace_ : Namespace)
    (dockercfg : Bytes) (w : σ) : Outcome Unit × σ :=
  match client.SecretsGet namespace_.Name imagePullSecretName w with
  | (.err err, w) =>
    if !IsNotFound err then
      (.error (Errorf "error reading secret" err), w)
    else
      match client.SecretsCreate namespace_.Name
          { Type_ := "kubernetes.io/dockercfg"
            Name := imagePullSecretName
            Namespace := namespace_.Name
            Data := some [(".dockercfg", dockercfg)] } w with
      | (.err err, w) => (.error (Errorf "error creating secret" err), w)
      | (.ok _, w) => (.ok (), w)
  | (.ok existing, w) =>
    match existing.Data with
    | none => (.panic "assignment to entry in nil map", w)
    | some data =>
      let existing := { existing with Data := some (mapAssign data ".dockercfg" dockercfg) }
      match client.SecretsUpdate namespace_.Name existing w with
      | (.err err, w) => (.error (Errorf "error updating secret" err), w)
      | (.ok _, w) => (.ok (), w)

/-- The scan of lines 121-127: is there a reference named `auto-image-pull-creds`? -/
def hasPullSecret (acct : ServiceAccount) : Bool :=
  acct.ImagePullSecrets.any (fun secret => secret.Name == imagePullSecretName)

/-- The `append` of lines 134-136. -/
def addPullSecret (acct : ServiceAccount) : ServiceAccount :=
  { acct with ImagePullSecrets := acct.ImagePullSecrets ++ [{ Name := imagePullSecretName }] }

/-- The loop over `saListResp.Items` (lines 118-141). -/
def SetupImagePullCreds.accounts {σ : Type} (client : Client σ) (nsName : String) :
    List ServiceAccount → σ → Outcome Unit × σ
  | [], w => (.ok (), w)
  | acct :: rest, w =>
    let found := hasPullSecret acct
    if found then
      SetupImagePullCreds.accounts client nsName rest w
    else
      let acct := addPullSecret acct
      match client.ServiceAccountsUpdate nsName acct w with
      | (.err err, w) => (.error (handleError err "error updating service account"), w)
      | (.ok _, w) => SetupImagePullCreds.accounts client nsName rest w

/-- The namespace filter of lines 88-98. -/
def SetupImagePullCreds.nsFilter {σ : Type} (s : Service σ) (req : SetupImagePullCredsReqeust) :
    String → Bool :=
  if req.Namespaces.length > 0 then
    let allowList := StringSet.New req.Namespaces
    fun name => allowList.Contains name
  else
    fun name => !s.ignoredNamespaces.Contains name

/-- The body of the loop over `listNSResp.Items` for a namespace that passed the filter
(lines 105-141): the secret step, the service-account listing, the account loop. -/
def SetupImagePullCreds.namespaceBody {σ : Type} (client : Client σ) (cfg : Bytes)
    (ns : Namespace) (w : σ) : Outcome Unit × σ :=
  match ensureImagePullSecret client ns cfg w with
  | (.error err, w) => (.error (handleError err "error ensuring image pull secret"), w)
  | (.panic msg, w) => (.panic msg, w)
  | (.ok _, w) =>
    match client.ServiceAccountsList ns.Name w with
    | (.err err, w) => (.error (handleError err "error listing service accounts"), w)
    | (.ok saListResp, w) => SetupImagePullCreds.accounts client ns.Name saListResp w

/-- The loop over `listNSResp.Items` (lines 100-142). -/
def SetupImagePullCreds.namespaces {σ : Type} (client : Client σ) (nsFilter : String → Bool)
    (cfg : Bytes) : List Namespace → σ → Outcome Unit × σ
  | [], w => (.ok (), w)
  | ns :: rest, w =>
    if !nsFilter ns.Name then
      SetupImagePullCreds.namespaces client nsFilter cfg rest w
    else
      match SetupImagePullCreds.namespaceBody client cfg ns w with
      | (.error err, w) => (.error err, w)
      | (.panic msg, w) => (.panic msg, w)
      | (.ok _, w) => SetupImagePullCreds.namespaces client nsFilter cfg rest w

def SetupImagePullCreds {σ : Type} (s : Service σ) (env : ClientEnv σ)
    (req : SetupImagePullCredsReqeust) (w : σ) : Outcome SetupImagePUllCredsResponse × σ :=
  match newClient env with
  | .err err => (.error (handleError err "error getting k8s client"), w)
  | .ok client =>
    match s.provider.CreateDockerCFG w with
    | (.err err, w) => (.error (handleError err "error creating image pull dockerconfig"), w)
    | (.ok cfg, w) =>
      match client.NamespacesList w with
      | (.err err, w) => (.error (handleError err "error listing namespaces"), w)
      | (.ok listNSResp, w) =>
        match SetupImagePullCreds.namespaces client (SetupImagePullCreds.nsFilter s req) cfg
            listNSResp w with
        | (.error err, w) => (.error err, w)
        | (.panic msg, w) => (.panic msg, w)
        | (.ok _, w) => (.ok {}, w)

/-! ## Recording the calls made to the collaborators -/

/-- One call made to a collaborator, with its arguments and what it returned. -/
inductive Call where
  | CreateDockerCFG (res : Result Bytes)
  | NamespacesList (res : Result (List Namespace))
  | SecretsGet (ns : String) (name : String) (res : Result Secret)
  | SecretsCreate (ns : String) (obj : Secret) (res : Result Secret)
  | SecretsUpdate (ns : String) (obj : Secret) (res : Result Secret)
  | ServiceAccountsList (ns : String) (res : Result (List ServiceAccount))
  | ServiceAccountsUpdate (ns : String) (obj : ServiceAccount) (res : Result ServiceAccount)
  deriving DecidableEq, Repr

/-- The client that behaves as `c` and appends every call to the log. -/
def Client.traced {σ : Type} (c : Client σ) : Client (σ × List Call) where
  NamespacesList := fun w =>
    let r := c.NamespacesList w.1
    (r.1, (r.2, w.2 ++ [Call.NamespacesList r.1]))
  SecretsGet := fun ns name w =>
    let r := c.SecretsGet ns name w.1
    (r.1, (r.2, w.2 ++ [Call.SecretsGet ns name r.1]))
  SecretsCreate := fun ns obj w =>
    let r := c.SecretsCreate ns obj w.1
    (r.1, (r.2, w.2 ++ [Call.SecretsCreate ns obj r.1]))
  SecretsUpdate := fun ns obj w =>
    let r := c.SecretsUpdate ns obj w.1
    (r.1, (r.2, w.2 ++ [Call.SecretsUpdate ns obj r.1]))
  ServiceAccountsList := fun ns w =>
    let r := c.ServiceAccountsList ns w.1
    (r.1, (r.2, w.2 ++ [Call.ServiceAccountsList ns r.1]))
  ServiceAccountsUpdate := fun ns obj w =>
    let r := c.ServiceAccountsUpdate ns obj w.1
    (r.1, (r.2, w.2 ++ [Call.ServiceAccountsUpdate ns obj r.1]))

/-- The provider that behaves as `p` and appends every call to the log. -/
def Provider.traced {σ : Type} (p : Provider σ) : Provider (σ × List Call) where
  CreateDockerCFG := fun w =>
    let r := p.CreateDockerCFG w.1
    (r.1, (r.2, w.2 ++ [Call.CreateDockerCFG r.1]))

/-- The service whose provider is traced. -/
def Service.traced {σ : Type} (s : Service σ) : Service (σ × List Call) :=
  { provider := s.provider.traced, ignoredNamespaces := s.ignoredNamespaces }

/-- The environment whose `NewForConfig` hands out traced clients. -/
def ClientEnv.traced {σ : Type} (env : ClientEnv σ) : ClientEnv (σ × List Call) :=
  { InClusterConfig := env.InClusterConfig
    GetDefaultFilename := env.GetDefaultFilename
    BuildConfigFromFlags := env.BuildConfigFromFlags
    NewForConfig := fun cfg =>
      match env.NewForConfig cfg with
      | .ok c => .ok c.traced
      | .err e => .err e }

/-- A provider that returns the same result on every call and touches nothing. -/
def Provider.fixed {σ : Type} (r : Result Bytes) : Provider σ :=
  { CreateDockerCFG := fun w => (r, w) }

/-! ## The cluster store behind the client -/

/-- Modelled from the spec: the cluster store of section 6 ("namespace listing,
service-account listing/update per namespace, secret get/create/update per namespace"),
an external collaborator that is not part of the repository.  Objects are kept in
lists and addressed by (namespace, name). -/
structure Cluster where
  namespaces : List Namespace
  secrets : List Secret
  serviceAccounts : List ServiceAccount
  deriving DecidableEq, Repr

/-- Does the secret have this (namespace, name)? -/
def Secret.hasKey (ns name : String) (s : Secret) : Bool := s.Namespace == ns && s.Name == name

/-- Does the service account have this (namespace, name)? -/
def ServiceAccount.hasKey (ns name : String) (a : ServiceAccount) : Bool :=
  a.Namespace == ns && a.Name == name

/-- Modelled from the spec: namespace listing of the cluster store. -/
def Cluster.listNamespaces (c : Cluster) : Result (List Namespace) × Cluster :=
  (.ok c.namespaces, c)

/-- Modelled from the spec: secret get, failing with a not-found error when absent. -/
def Cluster.getSecret (ns name : String) (c : Cluster) : Result Secret × Cluster :=
  match c.secrets.find? (Secret.hasKey ns name) with
  | some s => (.ok s, c)
  | none => (.err (.collab true "secret not found"), c)

/-- Modelled from the spec: secret create; it fails when the object is addressed to
another namespace or already exists. -/
def Cluster.createSecret (ns : String) (obj : Secret) (c : Cluster) : Result Secret × Cluster :=
  if obj.Namespace != ns then (.err (.collab false "namespace mismatch"), c)
  else if c.secrets.any (Secret.hasKey ns obj.Name) then
    (.err (.collab false "secret already exists"), c)
  else (.ok obj, { c with secrets := c.secrets ++ [obj] })

/-- Modelled from the spec: secret update; the stored object with the same
(namespace, name) is replaced, and the call fails when there is none. -/
def Cluster.updateSecret (ns : String) (obj : Secret) (c : Cluster) : Result Secret × Cluster :=
  if obj.Namespace != ns then (.err (.collab false "namespace mismatch"), c)
  else if c.secrets.any (Secret.hasKey ns obj.Name) then
    (.ok obj,
      { c with secrets := c.secrets.map (fun s => if Secret.hasKey ns obj.Name s then obj else s) })
  else (.err (.collab true "secret not found"), c)

/-- Modelled from the spec: service-account listing of one namespace. -/
def Cluster.listServiceAccounts (ns : String) (c : Cluster) :
    Result (List ServiceAccount) × Cluster :=
  (.ok (c.serviceAccounts.filter (fun a => a.Namespace == ns)), c)

/-- Modelled from the spec: service-account update; the stored object with the same
(namespace, name) is replaced, and the call fails when there is none. -/
def Cluster.updateServiceAccount (ns : String) (obj : ServiceAccount) (c : Cluster) :
    Result ServiceAccount × Cluster :=
  if obj.Namespace != ns then (.err (.collab false "namespace mismatch"), c)
  else if c.serviceAccounts.any (ServiceAccount.hasKey ns obj.Name) then
    (.ok obj,
      { c with serviceAccounts :=
          c.serviceAccounts.map (fun a => if ServiceAccount.hasKey ns obj.Name a then obj else a) })
  else (.err (.collab true "service account not found"), c)

/-- Modelled from the spec: the cluster store as the core sees it, where every call "may
fail" (section 6).  The cluster comes with a schedule of injected failures: the next
store call consumes the head of `faults`; `some e` makes it fail with `e` and leave the
cluster alone, `none` (or an exhausted schedule) lets it through. -/
structure Store where
  cluster : Cluster
  faults : List (Option Error)
  deriving DecidableEq, Repr

/-- Modelled from the spec: one store call under the failure schedule. -/
def Store.call {α : Type} (op : Cluster → Result α × Cluster) (s : Store) : Result α × Store :=
  match s.faults with
  | some e :: rest => (.err e, { cluster := s.cluster, faults := rest })
  | none :: rest => ((op s.cluster).1, { cluster := (op s.cluster).2, faults := rest })
  | [] => ((op s.cluster).1, { cluster := (op s.cluster).2, faults := [] })

/-- Modelled from the spec: the client of the cluster store, the six calls of section 6. -/
def storeClient : Client Store where
  NamespacesList := Store.call Cluster.listNamespaces
  SecretsGet := fun ns name => Store.call (Cluster.getSecret ns name)
  SecretsCreate := fun ns obj => Store.call (Cluster.createSecret ns obj)
  SecretsUpdate := fun ns obj => Store.call (Cluster.updateSecret ns obj)
  ServiceAccountsList := fun ns => Store.call (Cluster.listServiceAccounts ns)
  ServiceAccountsUpdate := fun ns obj => Store.call (Cluster.updateServiceAccount ns obj)

/-- An environment in which the in-cluster configuration is found and yields `c`. -/
def ClientEnv.inCluster {σ : Type} (c : Client σ) : ClientEnv σ :=
  { InClusterConfig := .ok { Host := "https://kubernetes.default.svc" }
    GetDefaultFilename := "/root/.kube/config"
    BuildConfigFromFlags := fun _ _ => .err (.collab false "no kubeconfig")
    NewForConfig := fun _ => .ok c }

/-! ## Concrete inputs on which the theorems are exercised -/

/-- A secret named `auto-image-pull-creds` in `default` that has no data entries. -/
def Example.emptySecret : Secret :=
  { Name := "auto-image-pull-creds", Namespace := "default", Type_ := "Opaque", Data := none }

/-- A cluster with three namespaces, no secrets and two service accounts. -/
def Example.fresh : Cluster :=
  { namespaces := [{ Name := "kube-system" }, { Name := "default" }, { Name := "team-a" }]
    secrets := []
    serviceAccounts :=
      [{ Name := "default", Namespace := "default", ImagePullSecrets := [{ Name := "other" }] },
       { Name := "builder", Namespace := "team-a" }] }

/-- The cluster `Example.fresh` in which `default` already holds a data-less pull secret. -/
def Example.withEmptySecret : Cluster :=
  { Example.fresh with secrets := [Example.emptySecret] }

/-- An error of the cluster client that is not a not-found error. -/
def Example.timeout : Error := .collab false "context deadline exceeded"

/-! ## Reading a log -/

/-- The (namespace, submitted object) of a service-account update call. -/
def Call.accountUpdate? : Call → Option (String × ServiceAccount)
  | .ServiceAccountsUpdate ns obj _ => some (ns, obj)
  | _ => none

/-- The calls `ensureImagePullSecret` makes from world `w`. -/
def ensureCalls {σ : Type} (c : Client σ) (ns : Namespace) (cfg : Bytes) (w : σ) : List Call :=
  (ensureImagePullSecret c.traced ns cfg (w, [])).2.2

/-- The calls the service-account loop makes from world `w`. -/
def accountsCalls {σ : Type} (c : Client σ) (nsName : String) (accts : List ServiceAccount)
    (w : σ) : List Call :=
  (SetupImagePullCreds.accounts c.traced nsName accts (w, [])).2.2

/-- The calls the namespace loop makes from world `w`. -/
def namespacesCalls {σ : Type} (c : Client σ) (f : String → Bool) (cfg : Bytes)
    (items : List Namespace) (w : σ) : List Call :=
  (SetupImagePullCreds.namespaces c.traced f cfg items (w, [])).2.2

/-- The calls the loop body makes for one namespace from world `w`. -/
def bodyCalls {σ : Type} (c : Client σ) (cfg : Bytes) (ns : Namespace) (w : σ) : List Call :=
  (SetupImagePullCreds.namespaceBody c.traced cfg ns (w, [])).2.2

/-- The namespace a cluster call is addressed to. -/
def Call.target? : Call → Option String
  | .SecretsGet ns _ _ => some ns
  | .SecretsCreate ns _ _ => some ns
  | .SecretsUpdate ns _ _ => some ns
  | .ServiceAccountsList ns _ => some ns
  | .ServiceAccountsUpdate ns _ _ => some ns
  | _ => none

/-- The namespace of a secret read. -/
def Call.secretGet? : Call → Option String
  | .SecretsGet ns _ _ => some ns
  | _ => none

/-- The namespace of a service-account listing. -/
def Call.accountList? : Call → Option String
  | .ServiceAccountsList ns _ => some ns
  | _ => none

/-- The secret `ensureImagePullSecret` submits to the create call. -/
def newPullSecret (nsName : String) (dockercfg : Bytes) : Secret :=
  { Type_ := "kubernetes.io/dockercfg"
    Name := imagePullSecretName
    Namespace := nsName
    Data := some [(".dockercfg", dockercfg)] }

/-- The secret `ensureImagePullSecret` submits to the update call. -/
def updatedPullSecret (existing : Secret) (data : Entries) (dockercfg : Bytes) : Secret :=
  { existing with Data := some (mapAssign data ".dockercfg" dockercfg) }

/-- What a write of `ensureImagePullSecret` makes it return: `nil`, or the error wrapped. -/
def writeOutcome (msg : String) : Result Secret → Outcome Unit
  | .ok _ => .ok ()
  | .err e => .error (Errorf msg e)

/-- The calls a whole run makes from world `w`. -/
def setupCalls {σ : Type} (s : Service σ) (env : ClientEnv σ) (req : SetupImagePullCredsReqeust)
    (w : σ) : List Call :=
  (SetupImagePullCreds s.traced env.traced req (w, [])).2.2

/-- How the result of the namespace loop becomes the result of the run. -/
def runOutcome : Outcome Unit → Outcome SetupImagePUllCredsResponse
  | .ok _ => .ok {}
  | .error e => .error e
  | .panic msg => .panic msg

/-- Did the call fail?  A secret read that reports "not found" is not a failure: it
selects the create path. -/
def Call.failed : Call → Bool
  | .CreateDockerCFG (.err _) => true
  | .NamespacesList (.err _) => true
  | .SecretsGet _ _ (.err e) => !IsNotFound e
  | .SecretsCreate _ _ (.err _) => true
  | .SecretsUpdate _ _ (.err _) => true
  | .ServiceAccountsList _ (.err _) => true
  | .ServiceAccountsUpdate _ _ (.err _) => true
  | _ => false

/-- The error the run returns when it stops at this call (`none`: the run goes on). -/
def Call.abortsWith : Call → Option Error
  | .CreateDockerCFG (.err e) => some e
  | .NamespacesList (.err e) => some e
  | .SecretsGet _ _ (.err e) =>
    if IsNotFound e then none else some (Errorf "error reading secret" e)
  | .SecretsCreate _ _ (.err e) => some (Errorf "error creating secret" e)
  | .SecretsUpdate _ _ (.err e) => some (Errorf "error updating secret" e)
  | .ServiceAccountsList _ (.err e) => some e
  | .ServiceAccountsUpdate _ _ (.err e) => some e
  | _ => none

/-- A log fits an outcome: an error outcome comes from the last call of the log and no
earlier call stops the run; any other outcome comes with a log in which no call does. -/
def AbortLog {α : Type} (calls : List Call) (out : Outcome α) : Prop :=
  match out with
  | .error e =>
    ∃ pre last, calls = pre ++ [last] ∧ (∀ x ∈ pre, x.abortsWith = none) ∧
      last.abortsWith = some e
  | _ => ∀ x ∈ calls, x.abortsWith = none

/-- A service built by `NewService` whose provider always returns the payload `[1, 2]`. -/
def Example.service : Service Store := NewService { Provider := Provider.fixed (.ok [1, 2]) }

/-- The environment in which the in-cluster configuration yields the cluster store client. -/
def Example.env : ClientEnv Store := ClientEnv.inCluster storeClient

/-- A request without an allow-list. -/
def Example.noList : SetupImagePullCredsReqeust := { Namespaces := [] }

/-- The (namespace, name) that identifies a service account. -/
def ServiceAccount.key (a : ServiceAccount) : String × String := (a.Namespace, a.Name)

/-- The service accounts of the cluster are identified by (namespace, name): no two stored
accounts share both (section 3 of the spec: "identified by (namespace, name)"). -/
abbrev Cluster.UniqueAccounts (c : Cluster) : Prop :=
  (c.serviceAccounts.map ServiceAccount.key).Nodup

/-- A cluster in which the `default` service account of `default` already references
`auto-image-pull-creds` twice. -/
def Example.duplicated : Cluster :=
  { namespaces := [{ Name := "default" }]
    secrets := []
    serviceAccounts :=
      [{ Name := "default", Namespace := "default",
         ImagePullSecrets := [{ Name := "auto-image-pull-creds" },
           { Name := "auto-image-pull-creds" }] }] }

/-- The pull secret of namespace `n` is present and holds `payload`: a read of
`auto-image-pull-creds` in `n` returns a secret whose `.dockercfg` entry is `payload`,
and every stored secret with that namespace and name is that secret. -/
def Cluster.Settled (c : Cluster) (n : String) (payload : Bytes) : Prop :=
  ∃ sec d, c.secrets.find? (Secret.hasKey n imagePullSecretName) = some sec ∧
    sec.Data = some d ∧ mapLookup d ".dockercfg" = some payload ∧
    ∀ x ∈ c.secrets, Secret.hasKey n imagePullSecretName x = true → x = sec

/-- Every service account of namespace `n` references `auto-image-pull-creds`. -/
def Cluster.AllPatched (c : Cluster) (n : String) : Prop :=
  ∀ a ∈ c.serviceAccounts, a.Namespace = n → hasPullSecret a = true

/-- The namespace of a secret create call. -/
def Call.secretCreate? : Call → Option String
  | .SecretsCreate ns _ _ => some ns
  | _ => none

/-- The result of a provider call. -/
def Call.provided? : Call → Option (Result Bytes)
  | .CreateDockerCFG r => some r
  | _ => none

/-- What a logged call did to the cluster: a write that returned success applied the
store's write; a read or a failed call left the cluster alone. -/
def Call.apply : Call → Cluster → Cluster
  | .SecretsCreate ns obj (.ok _), c => (Cluster.createSecret ns obj c).2
  | .SecretsUpdate ns obj (.ok _), c => (Cluster.updateSecret ns obj c).2
  | .ServiceAccountsUpdate ns obj (.ok _), c => (Cluster.updateServiceAccount ns obj c).2
  | _, c => c

/-- The cluster obtained by applying the successful writes of a log, in order. -/
def Cluster.replay (c : Cluster) (log : List Call) : Cluster :=
  log.foldl (fun acc call => call.apply acc) c

/-- The store over `Example.fresh` without injected failures. -/
def Example.freshStore : Store := { cluster := Example.fresh, faults := [] }

/-- The store a run without allow-list leaves when started from `Example.freshStore`:
`default` and `team-a` hold the pull secret and their accounts reference it. -/
def Example.freshDone : Store :=
  { cluster :=
      { namespaces := [{ Name := "kube-system" }, { Name := "default" }, { Name := "team-a" }]
        secrets :=
          [{ Name := "auto-image-pull-creds", Namespace := "default",
             Type_ := "kubernetes.io/dockercfg", Data := some [(".dockercfg", [1, 2])] },
           { Name := "auto-image-pull-creds", Namespace := "team-a",
             Type_ := "kubernetes.io/dockercfg", Data := some [(".dockercfg", [1, 2])] }]
        serviceAccounts :=
          [{ Name := "default", Namespace := "default",
             ImagePullSecrets := [{ Name := "other" }, { Name := "auto-image-pull-creds" }] },
           { Name := "builder", Namespace := "team-a",
             ImagePullSecrets := [{ Name := "auto-image-pull-creds" }] }] }
    faults := [] }

/-- The log of the run without allow-list started from `Example.freshStore`. -/
def Example.freshLog : List Call :=
  (SetupImagePullCreds Example.service.traced Example.env.traced Example.noList
    (Example.freshStore, [])).2.2

/-- The store over `Example.fresh` in which the seventh store call fails: the namespace
listing and the four calls for `default` go through, the secret read in `team-a` reports
"not found", and the secret create in `team-a` fails. -/
def Example.failingStore : Store :=
  { cluster := Example.fresh
    faults := [none, none, none, none, none, none, some Example.timeout] }

/-- The secret create call for `team-a` that fails with `Example.timeout`. -/
def Example.failedCreate : Call :=
  Call.SecretsCreate "team-a" (newPullSecret "team-a" [1, 2]) (.err Example.timeout)

/-- A request whose allow-list names an ignored namespace and a namespace that is not
listed. -/
def Example.allowKubeSystem : SetupImagePullCredsReqeust :=
  { Namespaces := ["kube-system", "absent"] }

/-- Two accounts of `default`: one without the pull-secret reference, one with it. -/
def Example.accounts : List ServiceAccount :=
  [{ Name := "default", Namespace := "default", ImagePullSecrets := [{ Name := "other" }] },
   { Name := "ci", Namespace := "default",
     ImagePullSecrets := [{ Name := "auto-image-pull-creds" }, { Name := "other" }] }]

/-- A store that holds `Example.accounts`. -/
def Example.accountsStore : Store :=
  { cluster := { namespaces := [{ Name := "default" }], secrets := [],
                 serviceAccounts := Example.accounts }
    faults := [] }

/-! ## Properties of the embedding -/

variable {σ : Type}

@[simp] theorem traced_NamespacesList (c : Client σ) (w : σ) (log : List Call) :
    c.traced.NamespacesList (w, log) =
      ((c.NamespacesList w).1, (c.NamespacesList w).2,
        log ++ [Call.NamespacesList (c.NamespacesList w).1]) := rfl

@[simp] theorem traced_SecretsGet (c : Client σ) (ns name : String) (w : σ) (log : List Call) :
    c.traced.SecretsGet ns name (w, log) =
      ((c.SecretsGet ns name w).1, (c.SecretsGet ns name w).2,
        log ++ [Call.SecretsGet ns name (c.SecretsGet ns name w).1]) := rfl

@[simp] theorem traced_SecretsCreate (c : Client σ) (ns : String) (obj : Secret) (w : σ)
    (log : List Call) :
    c.traced.SecretsCreate ns obj (w, log) =
      ((c.SecretsCreate ns obj w).1, (c.SecretsCreate ns obj w).2,
        log ++ [Call.SecretsCreate ns obj (c.SecretsCreate ns obj w).1]) := rfl

@[simp] theorem traced_SecretsUpdate (c : Client σ) (ns : String) (obj : Secret) (w : σ)
    (log : List Call) :
    c.traced.SecretsUpdate ns obj (w, log) =
      ((c.SecretsUpdate ns obj w).1, (c.SecretsUpdate ns obj w).2,
        log ++ [Call.SecretsUpdate ns obj (c.SecretsUpdate ns obj w).1]) := rfl

@[simp] theorem traced_ServiceAccountsList (c : Client σ) (ns : String) (w : σ)
    (log : List Call) :
    c.traced.ServiceAccountsList ns (w, log) =
      ((c.ServiceAccountsList ns w).1, (c.ServiceAccountsList ns w).2,
        log ++ [Call.ServiceAccountsList ns (c.ServiceAccountsList ns w).1]) := rfl

@[simp] theorem traced_ServiceAccountsUpdate (c : Client σ) (ns : String) (obj : ServiceAccount)
    (w : σ) (log : List Call) :
    c.traced.ServiceAccountsUpdate ns obj (w, log) =
      ((c.ServiceAccountsUpdate ns obj w).1, (c.ServiceAccountsUpdate ns obj w).2,
        log ++ [Call.ServiceAccountsUpdate ns obj (c.ServiceAccountsUpdate ns obj w).1]) := rfl

@[simp] theorem traced_CreateDockerCFG (p : Provider σ) (w : σ) (log : List Call) :
    p.traced.CreateDockerCFG (w, log) =
      ((p.CreateDockerCFG w).1, (p.CreateDockerCFG w).2,
        log ++ [Call.CreateDockerCFG (p.CreateDockerCFG w).1]) := rfl

theorem handleError_eq (err : Error) (msg : String) : handleError err msg = err := rfl

theorem newClient_traced (env : ClientEnv σ) :
    newClient env.traced =
      match newClient env with
      | .ok c => .ok c.traced
      | .err e => .err e := by
  unfold newClient ClientEnv.traced
  cases env.InClusterConfig with
  | ok cfg =>
    simp only
    cases env.NewForConfig cfg <;> rfl
  | err e =>
    simp only
    cases env.BuildConfigFromFlags "" env.GetDefaultFilename with
    | err e2 => rfl
    | ok c2 =>
      simp only
      cases env.NewForConfig c2 <;> rfl

theorem ensure_traced (c : Client σ) (ns : Namespace) (cfg : Bytes) (w : σ) (log : List Call) :
    ensureImagePullSecret c.traced ns cfg (w, log) =
      ((ensureImagePullSecret c ns cfg w).1, (ensureImagePullSecret c ns cfg w).2,
        log ++ (ensureImagePullSecret c.traced ns cfg (w, [])).2.2) := by
  unfold ensureImagePullSecret
  simp only [traced_SecretsGet, traced_SecretsCreate, traced_SecretsUpdate]
  rcases hget : c.SecretsGet ns.Name imagePullSecretName w with ⟨r, w1⟩
  cases r with
  | err e =>
    simp only
    by_cases hnf : IsNotFound e = true
    · simp only [hnf, Bool.not_true, Bool.false_eq_true, if_false]
      rcases hcr : c.SecretsCreate ns.Name
          { Type_ := "kubernetes.io/dockercfg", Name := imagePullSecretName,
            Namespace := ns.Name, Data := some [(".dockercfg", cfg)] } w1 with ⟨r2, w2⟩
      cases r2 <;> simp [hcr]
    · simp [hnf]
  | ok existing =>
    simp only
    cases hd : existing.Data with
    | none => simp
    | some data =>
      simp only
      rcases hup : c.SecretsUpdate ns.Name
          { existing with Data := some (mapAssign data ".dockercfg" cfg) } w1 with ⟨r2, w2⟩
      cases r2 <;> simp [hup]

theorem accounts_traced (c : Client σ) (nsName : String) (accts : List ServiceAccount) :
    ∀ (w : σ) (log : List Call),
      SetupImagePullCreds.accounts c.traced nsName accts (w, log) =
        ((SetupImagePullCreds.accounts c nsName accts w).1,
          (SetupImagePullCreds.accounts c nsName accts w).2,
          log ++ (SetupImagePullCreds.accounts c.traced nsName accts (w, [])).2.2) := by
  induction accts with
  | nil => intro w log; simp [SetupImagePullCreds.accounts]
  | cons a rest ih =>
    intro w log
    by_cases hf : hasPullSecret a = true
    · simp only [SetupImagePullCreds.accounts, hf, if_true]
      rw [ih w log, ih w []]
    · simp only [SetupImagePullCreds.accounts, hf, if_false, Bool.false_eq_true]
      rcases hup : c.ServiceAccountsUpdate nsName (addPullSecret a) w with ⟨r, w1⟩
      cases r with
      | err e => simp [hup]
      | ok v =>
        simp only [traced_ServiceAccountsUpdate, hup]
        rw [ih w1 (log ++ _), ih w1 ([] ++ _)]
        simp

theorem namespaceBody_traced (c : Client σ) (cfg : Bytes) (ns : Namespace) (w : σ)
    (log : List Call) :
    SetupImagePullCreds.namespaceBody c.traced cfg ns (w, log) =
      ((SetupImagePullCreds.namespaceBody c cfg ns w).1,
        (SetupImagePullCreds.namespaceBody c cfg ns w).2,
        log ++ (SetupImagePullCreds.namespaceBody c.traced cfg ns (w, [])).2.2) := by
  unfold SetupImagePullCreds.namespaceBody
  rw [ensure_traced c ns cfg w log, ensure_traced c ns cfg w []]
  rcases hen : ensureImagePullSecret c ns cfg w with ⟨r, w1⟩
  cases r with
  | error e => simp
  | panic m => simp
  | ok u =>
    simp only
    rcases hl : c.ServiceAccountsList ns.Name w1 with ⟨r2, w2⟩
    cases r2 with
    | err e => simp [hl]
    | ok accts =>
      simp only [traced_ServiceAccountsList, hl]
      rw [accounts_traced c ns.Name accts w2 (log ++ _ ++ _),
        accounts_traced c ns.Name accts w2 ([] ++ _ ++ _)]
      simp

theorem namespaces_traced (c : Client σ) (f : String → Bool) (cfg : Bytes)
    (items : List Namespace) :
    ∀ (w : σ) (log : List Call),
      SetupImagePullCreds.namespaces c.traced f cfg items (w, log) =
        ((SetupImagePullCreds.namespaces c f cfg items w).1,
          (SetupImagePullCreds.namespaces c f cfg items w).2,
          log ++ (SetupImagePullCreds.namespaces c.traced f cfg items (w, [])).2.2) := by
  induction items with
  | nil => intro w log; simp [SetupImagePullCreds.namespaces]
  | cons ns rest ih =>
    intro w log
    by_cases hf : f ns.Name = true
    · simp only [SetupImagePullCreds.namespaces, hf, Bool.not_true, Bool.false_eq_true, if_false]
      rw [namespaceBody_traced c cfg ns w log, namespaceBody_traced c cfg ns w []]
      rcases hb : SetupImagePullCreds.namespaceBody c cfg ns w with ⟨r, w1⟩
      cases r with
      | error e => simp
      | panic m => simp
      | ok u =>
        simp only
        rw [ih w1 (log ++ _), ih w1 ([] ++ _)]
        simp
    · simp only [SetupImagePullCreds.namespaces, hf, Bool.not_false, if_true]
      rw [ih w log, ih w []]

theorem setup_traced (s : Service σ) (env : ClientEnv σ) (req : SetupImagePullCredsReqeust)
    (w : σ) (log : List Call) :
    SetupImagePullCreds s.traced env.traced req (w, log) =
      ((SetupImagePullCreds s env req w).1, (SetupImagePullCreds s env req w).2,
        log ++ (SetupImagePullCreds s.traced env.traced req (w, [])).2.2) := by
  unfold SetupImagePullCreds
  rw [newClient_traced]
  cases hc : newClient env with
  | err e => simp
  | ok c =>
    simp only [Service.traced, traced_CreateDockerCFG]
    rcases hp : s.provider.CreateDockerCFG w with ⟨r, w1⟩
    cases r with
    | err e => simp
    | ok cfg =>
      simp only [traced_NamespacesList]
      rcases hl : c.NamespacesList w1 with ⟨r2, w2⟩
      cases r2 with
      | err e => simp
      | ok items =>
        simp only
        rw [namespaces_traced c _ cfg items w2 (log ++ _ ++ _),
          namespaces_traced c _ cfg items w2 ([] ++ _ ++ _)]
        have hflt : SetupImagePullCreds.nsFilter
            { provider := s.provider.traced, ignoredNamespaces := s.ignoredNamespaces } req =
            SetupImagePullCreds.nsFilter s req := rfl
        rw [hflt]
        rcases hn : SetupImagePullCreds.namespaces c (SetupImagePullCreds.nsFilter s req) cfg
          items w2 with ⟨r3, w3⟩
        cases r3 <;> simp

/-- C3: when the read of `auto-image-pull-creds` fails with a not-found error,
`ensureImagePullSecret` issues the read and then exactly one create call (and no update
call); the created secret has the fixed name, the given namespace, type
`kubernetes.io/dockercfg` and the single data entry `.dockercfg` holding the payload;
the function returns success exactly when the create call succeeds. -/
theorem ensureImagePullSecret_not_found_creates (c : Client σ) (namespace_ : Namespace)
    (payload : Bytes) (w w1 : σ) (log : List Call) (e : Error)
    (hget : c.SecretsGet namespace_.Name "auto-image-pull-creds" w = (.err e, w1))
    (hnf : IsNotFound e = true) :
    ∃ (created : Secret) (res : Result Secret) (w2 : σ) (out : Outcome Unit),
      created.Name = "auto-image-pull-creds" ∧ created.Namespace = namespace_.Name ∧
      created.Type_ = "kubernetes.io/dockercfg" ∧
      created.Data = some [(".dockercfg", payload)] ∧
      c.SecretsCreate namespace_.Name created w1 = (res, w2) ∧
      ensureImagePullSecret c.traced namespace_ payload (w, log) =
        (out, w2, log ++ [Call.SecretsGet namespace_.Name "auto-image-pull-creds" (.err e),
          Call.SecretsCreate namespace_.Name created res]) ∧
      (out = .ok () ↔ ∃ v, res = .ok v) := by
  rcases hcr : c.SecretsCreate namespace_.Name
      { Type_ := "kubernetes.io/dockercfg", Name := "auto-image-pull-creds",
        Namespace := namespace_.Name, Data := some [(".dockercfg", payload)] } w1 with ⟨res, w2⟩
  cases res with
  | ok v =>
    refine ⟨_, .ok v, w2, .ok (), rfl, rfl, rfl, rfl, hcr, ?_, by simp⟩
    simp [ensureImagePullSecret, imagePullSecretName, hget, hnf, hcr]
  | err e2 =>
    refine ⟨_, .err e2, w2, .error (Errorf "error creating secret" e2), rfl, rfl, rfl, rfl,
      hcr, ?_, by simp⟩
    simp [ensureImagePullSecret, imagePullSecretName, hget, hnf, hcr]

/-- C4: when the read of `auto-image-pull-creds` fails with an error that is not a
not-found error, `ensureImagePullSecret` returns an error (the read error wrapped as
"error reading secret"), the read is the only call it makes (no create, no update), the
world is left as the read left it, and on the cluster store the cluster is unchanged. -/
theorem ensureImagePullSecret_read_error_no_write (c : Client σ) (namespace_ : Namespace)
    (payload : Bytes) (w w1 : σ) (log : List Call) (e : Error)
    (hget : c.SecretsGet namespace_.Name "auto-image-pull-creds" w = (.err e, w1))
    (hnf : IsNotFound e = false) :
    ensureImagePullSecret c.traced namespace_ payload (w, log) =
        (.error (.errorf "error reading secret" e), w1,
          log ++ [Call.SecretsGet namespace_.Name "auto-image-pull-creds" (.err e)]) ∧
      ∀ (s : Store) (e2 : Error),
        (storeClient.SecretsGet namespace_.Name "auto-image-pull-creds" s).1 = .err e2 →
        IsNotFound e2 = false →
        (ensureImagePullSecret storeClient namespace_ payload s).2.cluster = s.cluster := by
  constructor
  · simp [ensureImagePullSecret, imagePullSecretName, hget, hnf, Errorf]
  · intro s e2 h1 h2
    have h1b : (storeClient.SecretsGet namespace_.Name imagePullSecretName s).1 = .err e2 := h1
    rcases hg : storeClient.SecretsGet namespace_.Name imagePullSecretName s with ⟨r, s1⟩
    rw [hg] at h1b
    simp only at h1b
    subst h1b
    have hs1 : s1.cluster = s.cluster := by
      have : (storeClient.SecretsGet namespace_.Name imagePullSecretName s).2 = s1 := by rw [hg]
      rw [← this]
      simp only [storeClient, Store.call, Cluster.getSecret]
      rcases s with ⟨cl, fl⟩
      rcases fl with _ | ⟨f, fl⟩
      · simp only; split <;> rfl
      · cases f
        · simp only; split <;> rfl
        · rfl
    simp [ensureImagePullSecret, hg, h2, hs1]

/-- C2 (evaluated at the failing input): the secret `auto-image-pull-creds` exists in
`default` and has no data entries, so its `Data` map is nil.  The read succeeds, the
assignment `existing.Data[".dockercfg"] = dockercfg` panics, and the log holds the read
only: no update call is issued. -/
theorem ensureImagePullSecret_nil_data_panics :
    ensureImagePullSecret storeClient.traced { Name := "default" } [1, 2]
        ({ cluster := Example.withEmptySecret, faults := [] }, []) =
      (.panic "assignment to entry in nil map",
        { cluster := Example.withEmptySecret, faults := [] },
        [Call.SecretsGet "default" "auto-image-pull-creds" (.ok Example.emptySecret)]) := by
  decide

/-- Witness for C3: in `Example.fresh` the namespace `default` has no pull secret, the read
reports "not found" and the secret is created. -/
theorem ensureImagePullSecret_not_found_creates_witness :
    storeClient.SecretsGet "default" "auto-image-pull-creds"
        { cluster := Example.fresh, faults := [] } =
      (.err (.collab true "secret not found"), { cluster := Example.fresh, faults := [] }) ∧
    IsNotFound (.collab true "secret not found") = true ∧
    ∃ (created : Secret) (res : Result Secret) (w2 : Store) (out : Outcome Unit),
      created.Name = "auto-image-pull-creds" ∧ created.Namespace = "default" ∧
      created.Type_ = "kubernetes.io/dockercfg" ∧
      created.Data = some [(".dockercfg", [1, 2])] ∧
      storeClient.SecretsCreate "default" created { cluster := Example.fresh, faults := [] } =
        (res, w2) ∧
      ensureImagePullSecret storeClient.traced { Name := "default" } [1, 2]
          ({ cluster := Example.fresh, faults := [] }, []) =
        (out, w2, [] ++ [Call.SecretsGet "default" "auto-image-pull-creds"
            (.err (.collab true "secret not found")),
          Call.SecretsCreate "default" created res]) ∧
      (out = .ok () ↔ ∃ v, res = .ok v) :=
  ⟨by decide, by decide,
    ensureImagePullSecret_not_found_creates storeClient { Name := "default" } [1, 2]
      { cluster := Example.fresh, faults := [] } { cluster := Example.fresh, faults := [] } []
      (.collab true "secret not found") (by decide) (by decide)⟩

/-- Witness for C4: the read in `default` fails with `Example.timeout`, which is not a
not-found error. -/
theorem ensureImagePullSecret_read_error_no_write_witness :
    storeClient.SecretsGet "default" "auto-image-pull-creds"
        { cluster := Example.fresh, faults := [some Example.timeout] } =
      (.err Example.timeout, { cluster := Example.fresh, faults := [] }) ∧
    IsNotFound Example.timeout = false ∧
    (ensureImagePullSecret storeClient.traced { Name := "default" } [1, 2]
        ({ cluster := Example.fresh, faults := [some Example.timeout] }, []) =
      (.error (.errorf "error reading secret" Example.timeout),
        { cluster := Example.fresh, faults := [] },
        [] ++ [Call.SecretsGet "default" "auto-image-pull-creds" (.err Example.timeout)])) :=
  ⟨by decide, by decide,
    (ensureImagePullSecret_read_error_no_write storeClient { Name := "default" } [1, 2]
      { cluster := Example.fresh, faults := [some Example.timeout] }
      { cluster := Example.fresh, faults := [] } [] Example.timeout (by decide) (by decide)).1⟩

theorem hasPullSecret_iff (a : ServiceAccount) :
    hasPullSecret a = true ↔ ∃ r ∈ a.ImagePullSecrets, r.Name = "auto-image-pull-creds" := by
  simp [hasPullSecret, imagePullSecretName]

theorem accountsCalls_nil (c : Client σ) (nsName : String) (w : σ) :
    accountsCalls c nsName [] w = [] := rfl

theorem accountsCalls_skip (c : Client σ) (nsName : String) (a : ServiceAccount)
    (rest : List ServiceAccount) (w : σ) (h : hasPullSecret a = true) :
    accountsCalls c nsName (a :: rest) w = accountsCalls c nsName rest w := by
  simp [accountsCalls, SetupImagePullCreds.accounts, h]

theorem accountsCalls_update (c : Client σ) (nsName : String) (a : ServiceAccount)
    (rest : List ServiceAccount) (w : σ) (h : hasPullSecret a = false) :
    accountsCalls c nsName (a :: rest) w =
      Call.ServiceAccountsUpdate nsName (addPullSecret a)
          (c.ServiceAccountsUpdate nsName (addPullSecret a) w).1 ::
        (match (c.ServiceAccountsUpdate nsName (addPullSecret a) w).1 with
          | .ok _ => accountsCalls c nsName rest (c.ServiceAccountsUpdate nsName (addPullSecret a) w).2
          | .err _ => []) := by
  simp only [accountsCalls, SetupImagePullCreds.accounts, h, Bool.false_eq_true, if_false,
    traced_ServiceAccountsUpdate]
  rcases hup : c.ServiceAccountsUpdate nsName (addPullSecret a) w with ⟨r, w1⟩
  cases r with
  | err e => simp
  | ok v =>
    simp only [List.nil_append]
    rw [accounts_traced]
    simp

theorem accounts_skip (c : Client σ) (nsName : String) (a : ServiceAccount)
    (rest : List ServiceAccount) (w : σ) (h : hasPullSecret a = true) :
    SetupImagePullCreds.accounts c nsName (a :: rest) w =
      SetupImagePullCreds.accounts c nsName rest w := by
  simp [SetupImagePullCreds.accounts, h]

theorem accounts_update (c : Client σ) (nsName : String) (a : ServiceAccount)
    (rest : List ServiceAccount) (w : σ) (h : hasPullSecret a = false) :
    SetupImagePullCreds.accounts c nsName (a :: rest) w =
      match c.ServiceAccountsUpdate nsName (addPullSecret a) w with
      | (.err err, w1) => (.error err, w1)
      | (.ok _, w1) => SetupImagePullCreds.accounts c nsName rest w1 := by
  simp only [SetupImagePullCreds.accounts, h, Bool.false_eq_true, if_false, handleError_eq]

theorem accountsCalls_spec (c : Client σ) (nsName : String) (accts : List ServiceAccount) :
    ∀ (w : σ),
      (∀ call ∈ accountsCalls c nsName accts w,
        ∃ obj res, call = Call.ServiceAccountsUpdate nsName obj res) ∧
      (accountsCalls c nsName accts w).filterMap Call.accountUpdate? <+:
        ((accts.filter (fun a => !hasPullSecret a)).map (fun a => (nsName, addPullSecret a))) ∧
      ((SetupImagePullCreds.accounts c nsName accts w).1 = .ok () →
        (accountsCalls c nsName accts w).filterMap Call.accountUpdate? =
          ((accts.filter (fun a => !hasPullSecret a)).map
            (fun a => (nsName, addPullSecret a)))) := by
  induction accts with
  | nil => intro w; simp [accountsCalls_nil]
  | cons a rest ih =>
    intro w
    cases h : hasPullSecret a with
    | true =>
      rw [accountsCalls_skip c nsName a rest w h, accounts_skip c nsName a rest w h]
      simpa [List.filter_cons, h] using ih w
    | false =>
      rw [accountsCalls_update c nsName a rest w h, accounts_update c nsName a rest w h]
      rcases hup : c.ServiceAccountsUpdate nsName (addPullSecret a) w with ⟨r, w1⟩
      cases r with
      | err e =>
        simp [List.filter_cons, h, Call.accountUpdate?]
      | ok v =>
        obtain ⟨h1, h2, h3⟩ := ih w1
        simp only [List.filter_cons, h, Bool.not_false, if_true, List.map_cons]
        refine ⟨?_, ?_, ?_⟩
        · intro call hcall
          rcases List.mem_cons.mp hcall with rfl | hm
          · exact ⟨_, _, rfl⟩
          · exact h1 call hm
        · simpa [Call.accountUpdate?] using h2
        · intro hok
          simpa [Call.accountUpdate?] using h3 hok

/-- C5: the service-account loop of `SetupImagePullCreds` (lines 118-141), run over the
listed accounts of a namespace, makes service-account update calls for that namespace
only; the objects it submits are, in listing order, the accounts that hold no reference
named `auto-image-pull-creds`, each with one such reference appended at the end of its
old list and nothing else changed.  If the loop completes, every such account is
submitted once; if an update fails, the submitted ones are the leading part of that
list.  An account that already holds the name is never submitted. -/
theorem accounts_updates_exactly_missing (c : Client σ) (nsName : String)
    (accts : List ServiceAccount) (w : σ) (log : List Call) :
    ∃ calls : List Call,
      (SetupImagePullCreds.accounts c.traced nsName accts (w, log)).2.2 = log ++ calls ∧
      (∀ call ∈ calls, ∃ obj res, call = Call.ServiceAccountsUpdate nsName obj res) ∧
      calls.filterMap Call.accountUpdate? <+:
        ((accts.filter
            (fun a => decide (∀ r ∈ a.ImagePullSecrets, r.Name ≠ "auto-image-pull-creds"))).map
          (fun a => (nsName, { a with ImagePullSecrets :=
            a.ImagePullSecrets ++ [{ Name := "auto-image-pull-creds" }] }))) ∧
      ((SetupImagePullCreds.accounts c.traced nsName accts (w, log)).1 = .ok () →
        calls.filterMap Call.accountUpdate? =
          ((accts.filter
              (fun a => decide (∀ r ∈ a.ImagePullSecrets, r.Name ≠ "auto-image-pull-creds"))).map
            (fun a => (nsName, { a with ImagePullSecrets :=
              a.ImagePullSecrets ++ [{ Name := "auto-image-pull-creds" }] })))) := by
  have hflt : (fun a : ServiceAccount =>
      decide (∀ r ∈ a.ImagePullSecrets, r.Name ≠ "auto-image-pull-creds")) =
      (fun a => !hasPullSecret a) := by
    funext a
    cases h : hasPullSecret a with
    | true =>
      have := (hasPullSecret_iff a).mp h
      simpa using this
    | false =>
      have : ¬ ∃ r ∈ a.ImagePullSecrets, r.Name = "auto-image-pull-creds" := by
        rw [← hasPullSecret_iff]; simp [h]
      simpa using this
  have hadd : (fun a : ServiceAccount => (nsName, ({ a with ImagePullSecrets :=
      a.ImagePullSecrets ++ [{ Name := "auto-image-pull-creds" }] } : ServiceAccount))) =
      (fun a => (nsName, addPullSecret a)) := rfl
  rw [hflt, hadd, accounts_traced]
  obtain ⟨h1, h2, h3⟩ := accountsCalls_spec c nsName accts w
  exact ⟨accountsCalls c nsName accts w, rfl, h1, h2, h3⟩

theorem ensure_cases (c : Client σ) (ns : Namespace) (cfg : Bytes) (w : σ) :
    (∃ e w1, c.SecretsGet ns.Name imagePullSecretName w = (.err e, w1) ∧ IsNotFound e = false ∧
      ensureImagePullSecret c ns cfg w = (.error (Errorf "error reading secret" e), w1) ∧
      ensureCalls c ns cfg w = [Call.SecretsGet ns.Name imagePullSecretName (.err e)]) ∨
    (∃ e w1 r w2, c.SecretsGet ns.Name imagePullSecretName w = (.err e, w1) ∧
      IsNotFound e = true ∧
      c.SecretsCreate ns.Name (newPullSecret ns.Name cfg) w1 = (r, w2) ∧
      ensureImagePullSecret c ns cfg w = (writeOutcome "error creating secret" r, w2) ∧
      ensureCalls c ns cfg w = [Call.SecretsGet ns.Name imagePullSecretName (.err e),
        Call.SecretsCreate ns.Name (newPullSecret ns.Name cfg) r]) ∨
    (∃ ex w1, c.SecretsGet ns.Name imagePullSecretName w = (.ok ex, w1) ∧ ex.Data = none ∧
      ensureImagePullSecret c ns cfg w = (.panic "assignment to entry in nil map", w1) ∧
      ensureCalls c ns cfg w = [Call.SecretsGet ns.Name imagePullSecretName (.ok ex)]) ∨
    (∃ ex d w1 r w2, c.SecretsGet ns.Name imagePullSecretName w = (.ok ex, w1) ∧
      ex.Data = some d ∧
      c.SecretsUpdate ns.Name (updatedPullSecret ex d cfg) w1 = (r, w2) ∧
      ensureImagePullSecret c ns cfg w = (writeOutcome "error updating secret" r, w2) ∧
      ensureCalls c ns cfg w = [Call.SecretsGet ns.Name imagePullSecretName (.ok ex),
        Call.SecretsUpdate ns.Name (updatedPullSecret ex d cfg) r]) := by
  rcases hget : c.SecretsGet ns.Name imagePullSecretName w with ⟨r, w1⟩
  cases r with
  | err e =>
    cases hnf : IsNotFound e with
    | false =>
      left
      exact ⟨e, w1, rfl, hnf, by simp [ensureImagePullSecret, hget, hnf],
        by simp [ensureCalls, ensureImagePullSecret, hget, hnf]⟩
    | true =>
      right; left
      rcases hcr : c.SecretsCreate ns.Name (newPullSecret ns.Name cfg) w1 with ⟨r2, w2⟩
      have hcr2 := hcr
      unfold newPullSecret at hcr2
      refine ⟨e, w1, r2, w2, rfl, hnf, hcr, ?_, ?_⟩
      · cases r2 <;> simp [ensureImagePullSecret, hget, hnf, hcr2, writeOutcome]
      · cases r2 <;> simp [ensureCalls, ensureImagePullSecret, hget, hnf, hcr2, newPullSecret]
  | ok ex =>
    cases hd : ex.Data with
    | none =>
      right; right; left
      refine ⟨ex, w1, rfl, hd, ?_, ?_⟩
      · simp only [ensureImagePullSecret, hget]
        split
        · rfl
        · rename_i d hd2; rw [hd] at hd2; cases hd2
      · simp only [ensureCalls, ensureImagePullSecret, traced_SecretsGet, hget]
        split
        · simp
        · rename_i d hd2; rw [hd] at hd2; cases hd2
    | some d =>
      right; right; right
      rcases hup : c.SecretsUpdate ns.Name (updatedPullSecret ex d cfg) w1 with ⟨r2, w2⟩
      have hup2 := hup
      unfold updatedPullSecret at hup2
      refine ⟨ex, d, w1, r2, w2, rfl, hd, hup, ?_, ?_⟩
      · simp only [ensureImagePullSecret, hget]
        split
        · rename_i hd2; rw [hd] at hd2; cases hd2
        · rename_i d2 hd2
          rw [hd] at hd2
          cases hd2
          cases r2 <;> simp [hup2, writeOutcome]
      · simp only [ensureCalls, ensureImagePullSecret, traced_SecretsGet, hget]
        split
        · rename_i hd2; rw [hd] at hd2; cases hd2
        · rename_i d2 hd2
          rw [hd] at hd2
          cases hd2
          cases r2 <;> simp [hup2, updatedPullSecret]

theorem body_cases (c : Client σ) (cfg : Bytes) (ns : Namespace) (w : σ) :
    (∃ e w1, ensureImagePullSecret c ns cfg w = (.error e, w1) ∧
      SetupImagePullCreds.namespaceBody c cfg ns w = (.error e, w1) ∧
      bodyCalls c cfg ns w = ensureCalls c ns cfg w) ∨
    (∃ m w1, ensureImagePullSecret c ns cfg w = (.panic m, w1) ∧
      SetupImagePullCreds.namespaceBody c cfg ns w = (.panic m, w1) ∧
      bodyCalls c cfg ns w = ensureCalls c ns cfg w) ∨
    (∃ w1 e w2, ensureImagePullSecret c ns cfg w = (.ok (), w1) ∧
      c.ServiceAccountsList ns.Name w1 = (.err e, w2) ∧
      SetupImagePullCreds.namespaceBody c cfg ns w = (.error e, w2) ∧
      bodyCalls c cfg ns w =
        ensureCalls c ns cfg w ++ [Call.ServiceAccountsList ns.Name (.err e)]) ∨
    (∃ w1 accts w2, ensureImagePullSecret c ns cfg w = (.ok (), w1) ∧
      c.ServiceAccountsList ns.Name w1 = (.ok accts, w2) ∧
      SetupImagePullCreds.namespaceBody c cfg ns w =
        SetupImagePullCreds.accounts c ns.Name accts w2 ∧
      bodyCalls c cfg ns w =
        ensureCalls c ns cfg w ++ [Call.ServiceAccountsList ns.Name (.ok accts)] ++
          accountsCalls c ns.Name accts w2) := by
  unfold bodyCalls ensureCalls accountsCalls SetupImagePullCreds.namespaceBody
  rw [ensure_traced c ns cfg w []]
  rcases hen : ensureImagePullSecret c ns cfg w with ⟨r, w1⟩
  cases r with
  | error e => left; exact ⟨e, w1, rfl, by simp [handleError_eq], by simp⟩
  | panic m => right; left; exact ⟨m, w1, rfl, by simp, by simp⟩
  | ok u =>
    right; right
    rcases hl : c.ServiceAccountsList ns.Name w1 with ⟨r2, w2⟩
    cases r2 with
    | err e =>
      left
      exact ⟨w1, e, w2, rfl, hl, by simp [hl, handleError_eq], by simp [hl]⟩
    | ok accts =>
      right
      refine ⟨w1, accts, w2, rfl, hl, by simp [hl], ?_⟩
      simp only [traced_ServiceAccountsList, hl]
      rw [accounts_traced]

theorem namespaces_skip (c : Client σ) (f : String → Bool) (cfg : Bytes) (ns : Namespace)
    (rest : List Namespace) (w : σ) (h : f ns.Name = false) :
    SetupImagePullCreds.namespaces c f cfg (ns :: rest) w =
      SetupImagePullCreds.namespaces c f cfg rest w := by
  simp [SetupImagePullCreds.namespaces, h]

theorem namespacesCalls_skip (c : Client σ) (f : String → Bool) (cfg : Bytes) (ns : Namespace)
    (rest : List Namespace) (w : σ) (h : f ns.Name = false) :
    namespacesCalls c f cfg (ns :: rest) w = namespacesCalls c f cfg rest w := by
  simp [namespacesCalls, SetupImagePullCreds.namespaces, h]

theorem namespaces_step_ok (c : Client σ) (f : String → Bool) (cfg : Bytes) (ns : Namespace)
    (rest : List Namespace) (w w1 : σ) (h : f ns.Name = true)
    (hb : SetupImagePullCreds.namespaceBody c cfg ns w = (.ok (), w1)) :
    SetupImagePullCreds.namespaces c f cfg (ns :: rest) w =
        SetupImagePullCreds.namespaces c f cfg rest w1 ∧
      namespacesCalls c f cfg (ns :: rest) w =
        bodyCalls c cfg ns w ++ namespacesCalls c f cfg rest w1 := by
  constructor
  · simp [SetupImagePullCreds.namespaces, h, hb]
  · simp only [namespacesCalls, SetupImagePullCreds.namespaces, h, Bool.not_true,
      Bool.false_eq_true, if_false, bodyCalls]
    rw [namespaceBody_traced c cfg ns w [], hb]
    simp only
    rw [namespaces_traced]

theorem namespaces_step_error (c : Client σ) (f : String → Bool) (cfg : Bytes) (ns : Namespace)
    (rest : List Namespace) (w w1 : σ) (e : Error) (h : f ns.Name = true)
    (hb : SetupImagePullCreds.namespaceBody c cfg ns w = (.error e, w1)) :
    SetupImagePullCreds.namespaces c f cfg (ns :: rest) w = (.error e, w1) ∧
      namespacesCalls c f cfg (ns :: rest) w = bodyCalls c cfg ns w := by
  constructor
  · simp [SetupImagePullCreds.namespaces, h, hb]
  · simp only [namespacesCalls, SetupImagePullCreds.namespaces, h, Bool.not_true,
      Bool.false_eq_true, if_false, bodyCalls]
    rw [namespaceBody_traced c cfg ns w [], hb]

theorem namespaces_step_panic (c : Client σ) (f : String → Bool) (cfg : Bytes) (ns : Namespace)
    (rest : List Namespace) (w w1 : σ) (m : String) (h : f ns.Name = true)
    (hb : SetupImagePullCreds.namespaceBody c cfg ns w = (.panic m, w1)) :
    SetupImagePullCreds.namespaces c f cfg (ns :: rest) w = (.panic m, w1) ∧
      namespacesCalls c f cfg (ns :: rest) w = bodyCalls c cfg ns w := by
  constructor
  · simp [SetupImagePullCreds.namespaces, h, hb]
  · simp only [namespacesCalls, SetupImagePullCreds.namespaces, h, Bool.not_true,
      Bool.false_eq_true, if_false, bodyCalls]
    rw [namespaceBody_traced c cfg ns w [], hb]

theorem setup_cases (s : Service σ) (env : ClientEnv σ) (req : SetupImagePullCredsReqeust)
    (w : σ) :
    (∃ e, newClient env = .err e ∧ SetupImagePullCreds s env req w = (.error e, w) ∧
      setupCalls s env req w = []) ∨
    (∃ c e w1, newClient env = .ok c ∧ s.provider.CreateDockerCFG w = (.err e, w1) ∧
      SetupImagePullCreds s env req w = (.error e, w1) ∧
      setupCalls s env req w = [Call.CreateDockerCFG (.err e)]) ∨
    (∃ c cfg w1 e w2, newClient env = .ok c ∧ s.provider.CreateDockerCFG w = (.ok cfg, w1) ∧
      c.NamespacesList w1 = (.err e, w2) ∧
      SetupImagePullCreds s env req w = (.error e, w2) ∧
      setupCalls s env req w = [Call.CreateDockerCFG (.ok cfg), Call.NamespacesList (.err e)]) ∨
    (∃ c cfg w1 items w2, newClient env = .ok c ∧
      s.provider.CreateDockerCFG w = (.ok cfg, w1) ∧
      c.NamespacesList w1 = (.ok items, w2) ∧
      SetupImagePullCreds s env req w =
        (runOutcome (SetupImagePullCreds.namespaces c (SetupImagePullCreds.nsFilter s req) cfg
          items w2).1,
          (SetupImagePullCreds.namespaces c (SetupImagePullCreds.nsFilter s req) cfg
            items w2).2) ∧
      setupCalls s env req w =
        [Call.CreateDockerCFG (.ok cfg), Call.NamespacesList (.ok items)] ++
          namespacesCalls c (SetupImagePullCreds.nsFilter s req) cfg items w2) := by
  unfold setupCalls namespacesCalls SetupImagePullCreds
  rw [newClient_traced]
  cases hc : newClient env with
  | err e => left; exact ⟨e, rfl, by simp [handleError_eq], by simp⟩
  | ok c =>
    right
    simp only [Service.traced, traced_CreateDockerCFG]
    rcases hp : s.provider.CreateDockerCFG w with ⟨r, w1⟩
    cases r with
    | err e => left; exact ⟨c, e, w1, rfl, rfl, by simp [handleError_eq], by simp⟩
    | ok cfg =>
      right
      simp only [traced_NamespacesList]
      rcases hl : c.NamespacesList w1 with ⟨r2, w2⟩
      cases r2 with
      | err e => left; exact ⟨c, cfg, w1, e, w2, rfl, rfl, hl, by simp [handleError_eq], by simp⟩
      | ok items =>
        right
        refine ⟨c, cfg, w1, items, w2, rfl, rfl, hl, ?_, ?_⟩
        · rcases hn : SetupImagePullCreds.namespaces c (SetupImagePullCreds.nsFilter s req) cfg
            items w2 with ⟨r3, w3⟩
          cases r3 <;> simp [hn, runOutcome]
        · simp only
          have hflt : SetupImagePullCreds.nsFilter
              { provider := s.provider.traced, ignoredNamespaces := s.ignoredNamespaces } req =
              SetupImagePullCreds.nsFilter s req := rfl
          rw [hflt, namespaces_traced c _ cfg items w2 ([] ++ _ ++ _)]
          rcases hn : SetupImagePullCreds.namespaces c (SetupImagePullCreds.nsFilter s req) cfg
            items w2 with ⟨r3, w3⟩
          cases r3 <;> simp [hn]

theorem ensureCalls_reads (c : Client σ) (ns : Namespace) (cfg : Bytes) (w : σ) :
    (∀ call ∈ ensureCalls c ns cfg w, call.target? = some ns.Name) ∧
      (ensureCalls c ns cfg w).filterMap Call.secretGet? = [ns.Name] ∧
      (ensureCalls c ns cfg w).filterMap Call.accountList? = [] := by
  rcases ensure_cases c ns cfg w with ⟨e, w1, -, -, -, h⟩ | ⟨e, w1, r, w2, -, -, -, -, h⟩ |
    ⟨ex, w1, -, -, -, h⟩ | ⟨ex, d, w1, r, w2, -, -, -, -, h⟩ <;>
  simp [h, Call.target?, Call.secretGet?, Call.accountList?]

theorem accountsCalls_reads (c : Client σ) (nsName : String) (accts : List ServiceAccount)
    (w : σ) :
    (∀ call ∈ accountsCalls c nsName accts w, call.target? = some nsName) ∧
      (accountsCalls c nsName accts w).filterMap Call.secretGet? = [] ∧
      (accountsCalls c nsName accts w).filterMap Call.accountList? = [] := by
  have h := (accountsCalls_spec c nsName accts w).1
  refine ⟨?_, ?_, ?_⟩
  · intro call hc
    obtain ⟨obj, res, rfl⟩ := h call hc
    rfl
  · rw [List.filterMap_eq_nil_iff]
    intro call hc
    obtain ⟨obj, res, rfl⟩ := h call hc
    rfl
  · rw [List.filterMap_eq_nil_iff]
    intro call hc
    obtain ⟨obj, res, rfl⟩ := h call hc
    rfl

theorem bodyCalls_reads (c : Client σ) (cfg : Bytes) (ns : Namespace) (w : σ) :
    (∀ call ∈ bodyCalls c cfg ns w, call.target? = some ns.Name) ∧
      (bodyCalls c cfg ns w).filterMap Call.secretGet? = [ns.Name] ∧
      (bodyCalls c cfg ns w).filterMap Call.accountList? <+: [ns.Name] ∧
      (∀ w1, SetupImagePullCreds.namespaceBody c cfg ns w = (.ok (), w1) →
        (bodyCalls c cfg ns w).filterMap Call.accountList? = [ns.Name]) := by
  obtain ⟨e1, e2, e3⟩ := ensureCalls_reads c ns cfg w
  rcases body_cases c cfg ns w with ⟨e, w1, -, hb, h⟩ | ⟨m, w1, -, hb, h⟩ |
    ⟨w1, e, w2, -, -, hb, h⟩ | ⟨w1, accts, w2, -, -, hb, h⟩
  · rw [h, hb]
    exact ⟨e1, e2, by simp [e3], by intro w1 h; cases h⟩
  · rw [h, hb]
    exact ⟨e1, e2, by simp [e3], by intro w1 h; cases h⟩
  · rw [h, hb]
    refine ⟨?_, ?_, ?_, by intro w1 h; cases h⟩
    · intro call hc
      rcases List.mem_append.mp hc with hc | hc
      · exact e1 call hc
      · simp at hc; subst hc; rfl
    · simp [List.filterMap_append, e2, Call.secretGet?]
    · simp [List.filterMap_append, e3, Call.accountList?]
  · obtain ⟨a1, a2, a3⟩ := accountsCalls_reads c ns.Name accts w2
    rw [h]
    refine ⟨?_, ?_, ?_, ?_⟩
    · intro call hc
      rcases List.mem_append.mp hc with hc | hc
      · rcases List.mem_append.mp hc with hc | hc
        · exact e1 call hc
        · simp at hc; subst hc; rfl
      · exact a1 call hc
    · simp [List.filterMap_append, e2, a2, Call.secretGet?]
    · simp [List.filterMap_append, e3, a3, Call.accountList?]
    · intro _ _
      simp [List.filterMap_append, e3, a3, Call.accountList?]

theorem namespacesCalls_reads (c : Client σ) (f : String → Bool) (cfg : Bytes)
    (items : List Namespace) :
    ∀ (w : σ),
      (∀ call ∈ namespacesCalls c f cfg items w,
        ∃ n, call.target? = some n ∧ f n = true ∧ n ∈ items.map (fun ns => ns.Name)) ∧
      (namespacesCalls c f cfg items w).filterMap Call.secretGet? <+:
        (items.map (fun ns => ns.Name)).filter f ∧
      (namespacesCalls c f cfg items w).filterMap Call.accountList? <+:
        (items.map (fun ns => ns.Name)).filter f ∧
      ((SetupImagePullCreds.namespaces c f cfg items w).1 = .ok () →
        (namespacesCalls c f cfg items w).filterMap Call.secretGet? =
            (items.map (fun ns => ns.Name)).filter f ∧
          (namespacesCalls c f cfg items w).filterMap Call.accountList? =
            (items.map (fun ns => ns.Name)).filter f) := by
  induction items with
  | nil =>
    intro w
    simp [namespacesCalls, SetupImagePullCreds.namespaces]
  | cons ns rest ih =>
    intro w
    cases hf : f ns.Name with
    | false =>
      rw [namespacesCalls_skip c f cfg ns rest w hf, namespaces_skip c f cfg ns rest w hf]
      obtain ⟨i1, i2, i3, i4⟩ := ih w
      refine ⟨?_, ?_, ?_, ?_⟩
      · intro call hc
        obtain ⟨n, h1, h2, h3⟩ := i1 call hc
        exact ⟨n, h1, h2, by simp at h3 ⊢; exact Or.inr h3⟩
      · simpa [List.filter_cons, hf] using i2
      · simpa [List.filter_cons, hf] using i3
      · simpa [List.filter_cons, hf] using i4
    | true =>
      obtain ⟨b1, b2, b3, b4⟩ := bodyCalls_reads c cfg ns w
      have hexp : ((ns :: rest).map (fun ns => ns.Name)).filter f =
          ns.Name :: (rest.map (fun ns => ns.Name)).filter f := by
        simp [List.filter_cons, hf]
      rw [hexp]
      rcases hb : SetupImagePullCreds.namespaceBody c cfg ns w with ⟨r, w1⟩
      cases r with
      | ok u =>
        obtain ⟨hn, hcalls⟩ := namespaces_step_ok c f cfg ns rest w w1 hf hb
        obtain ⟨i1, i2, i3, i4⟩ := ih w1
        rw [hn, hcalls]
        refine ⟨?_, ?_, ?_, ?_⟩
        · intro call hc
          rcases List.mem_append.mp hc with hc | hc
          · exact ⟨ns.Name, b1 call hc, hf, by simp⟩
          · obtain ⟨n, h1, h2, h3⟩ := i1 call hc
            exact ⟨n, h1, h2, by simp at h3 ⊢; exact Or.inr h3⟩
        · rw [List.filterMap_append, b2]
          simpa using i2
        · rw [List.filterMap_append, b4 w1 hb]
          simpa using i3
        · intro hok
          obtain ⟨j1, j2⟩ := i4 hok
          rw [List.filterMap_append, List.filterMap_append, b2, b4 w1 hb, j1, j2]
          simp
      | error e =>
        obtain ⟨hn, hcalls⟩ := namespaces_step_error c f cfg ns rest w w1 e hf hb
        rw [hn, hcalls]
        refine ⟨?_, ?_, ?_, ?_⟩
        · intro call hc
          exact ⟨ns.Name, b1 call hc, hf, by simp⟩
        · rw [b2]; simp
        · exact b3.trans (by simp)
        · intro h; cases h
      | panic m =>
        obtain ⟨hn, hcalls⟩ := namespaces_step_panic c f cfg ns rest w w1 m hf hb
        rw [hn, hcalls]
        refine ⟨?_, ?_, ?_, ?_⟩
        · intro call hc
          exact ⟨ns.Name, b1 call hc, hf, by simp⟩
        · rw [b2]; simp
        · exact b3.trans (by simp)
        · intro h; cases h

theorem nsFilter_NewService (conf : ServiceConfig σ) (req : SetupImagePullCredsReqeust)
    (n : String) :
    SetupImagePullCreds.nsFilter (NewService conf) req n =
      decide ((req.Namespaces ≠ [] ∧ n ∈ req.Namespaces) ∨
        (req.Namespaces = [] ∧ n ∉ ["kube-system", "kube-node-lease", "kube-public"])) := by
  rcases req with ⟨l⟩
  cases l with
  | nil => simp [SetupImagePullCreds.nsFilter, NewService, StringSet.New, StringSet.Contains]
  | cons x xs =>
    simp [SetupImagePullCreds.nsFilter, NewService, StringSet.New, StringSet.Contains]

/-- C1: with the ignore-set built by `NewService`, the filter accepts a name `n` iff the
allow-list of the request is non-empty and contains `n`, or it is empty and `n` is none of
`kube-system`, `kube-node-lease`, `kube-public` (so an ignored name on a non-empty
allow-list is accepted).  In a run, every call addressed to a namespace (secret
get/create/update, service-account list/update) is addressed to a listed namespace the
filter accepts; the namespaces whose secret step and service-account step are run are,
in listing order, the accepted names of the listing: all of them when the run succeeds,
a leading part when it stops early. -/
theorem setup_processes_exactly_in_scope (conf : ServiceConfig σ) (env : ClientEnv σ)
    (req : SetupImagePullCredsReqeust) (w : σ) :
    (∀ n, SetupImagePullCreds.nsFilter (NewService conf) req n = true ↔
      ((req.Namespaces ≠ [] ∧ n ∈ req.Namespaces) ∨
        (req.Namespaces = [] ∧ n ∉ ["kube-system", "kube-node-lease", "kube-public"]))) ∧
    (∀ call ∈ (SetupImagePullCreds (NewService conf).traced env.traced req (w, [])).2.2,
      ∀ n, call.target? = some n →
        ((req.Namespaces ≠ [] ∧ n ∈ req.Namespaces) ∨
          (req.Namespaces = [] ∧ n ∉ ["kube-system", "kube-node-lease", "kube-public"])) ∧
        ∃ items, Call.NamespacesList (.ok items) ∈
            (SetupImagePullCreds (NewService conf).traced env.traced req (w, [])).2.2 ∧
          n ∈ items.map (fun ns => ns.Name)) ∧
    (∀ items, Call.NamespacesList (.ok items) ∈
        (SetupImagePullCreds (NewService conf).traced env.traced req (w, [])).2.2 →
      (SetupImagePullCreds (NewService conf).traced env.traced req (w, [])).2.2.filterMap
          Call.secretGet? <+:
        (items.map (fun ns => ns.Name)).filter (fun n => decide
          ((req.Namespaces ≠ [] ∧ n ∈ req.Namespaces) ∨
            (req.Namespaces = [] ∧ n ∉ ["kube-system", "kube-node-lease", "kube-public"]))) ∧
      (SetupImagePullCreds (NewService conf).traced env.traced req (w, [])).2.2.filterMap
          Call.accountList? <+:
        (items.map (fun ns => ns.Name)).filter (fun n => decide
          ((req.Namespaces ≠ [] ∧ n ∈ req.Namespaces) ∨
            (req.Namespaces = [] ∧ n ∉ ["kube-system", "kube-node-lease", "kube-public"]))) ∧
      ((SetupImagePullCreds (NewService conf).traced env.traced req (w, [])).1 = .ok {} →
        (SetupImagePullCreds (NewService conf).traced env.traced req (w, [])).2.2.filterMap
            Call.secretGet? =
          (items.map (fun ns => ns.Name)).filter (fun n => decide
            ((req.Namespaces ≠ [] ∧ n ∈ req.Namespaces) ∨
              (req.Namespaces = [] ∧ n ∉ ["kube-system", "kube-node-lease", "kube-public"]))) ∧
        (SetupImagePullCreds (NewService conf).traced env.traced req (w, [])).2.2.filterMap
            Call.accountList? =
          (items.map (fun ns => ns.Name)).filter (fun n => decide
            ((req.Namespaces ≠ [] ∧ n ∈ req.Namespaces) ∨
              (req.Namespaces = [] ∧
                n ∉ ["kube-system", "kube-node-lease", "kube-public"]))))) := by
  have hfilter : ∀ n, SetupImagePullCreds.nsFilter (NewService conf) req n = true ↔
      ((req.Namespaces ≠ [] ∧ n ∈ req.Namespaces) ∨
        (req.Namespaces = [] ∧ n ∉ ["kube-system", "kube-node-lease", "kube-public"])) := by
    intro n
    rw [nsFilter_NewService]
    exact decide_eq_true_iff
  have hfun : (fun n => decide ((req.Namespaces ≠ [] ∧ n ∈ req.Namespaces) ∨
      (req.Namespaces = [] ∧ n ∉ ["kube-system", "kube-node-lease", "kube-public"]))) =
      SetupImagePullCreds.nsFilter (NewService conf) req := by
    funext n
    rw [nsFilter_NewService]
  have hlog : (SetupImagePullCreds (NewService conf).traced env.traced req (w, [])).2.2 =
      setupCalls (NewService conf) env req w := rfl
  have hout : (SetupImagePullCreds (NewService conf).traced env.traced req (w, [])).1 =
      (SetupImagePullCreds (NewService conf) env req w).1 := by rw [setup_traced]
  rw [hfun, hlog, hout]
  refine ⟨hfilter, ?_, ?_⟩
  · intro call hcall n hn
    rcases setup_cases (NewService conf) env req w with ⟨e, -, -, hc⟩ | ⟨c, e, w1, -, -, -, hc⟩ |
      ⟨c, cfg, w1, e, w2, -, -, -, -, hc⟩ | ⟨c, cfg, w1, items, w2, -, -, -, -, hc⟩
    · rw [hc] at hcall; simp at hcall
    · rw [hc] at hcall; simp at hcall; subst hcall; cases hn
    · rw [hc] at hcall; simp at hcall
      rcases hcall with rfl | rfl <;> cases hn
    · rw [hc] at hcall ⊢
      rcases List.mem_append.mp hcall with h | h
      · simp at h
        rcases h with rfl | rfl <;> cases hn
      · obtain ⟨n2, h1, h2, h3⟩ :=
          (namespacesCalls_reads c _ cfg items w2).1 call h
        rw [hn] at h1
        cases h1
        exact ⟨(hfilter n).mp h2, items, by simp, h3⟩
  · intro items hmem
    rcases setup_cases (NewService conf) env req w with ⟨e, -, -, hc⟩ | ⟨c, e, w1, -, -, -, hc⟩ |
      ⟨c, cfg, w1, e, w2, -, -, -, -, hc⟩ | ⟨c, cfg, w1, items2, w2, -, -, -, hrun, hc⟩
    · rw [hc] at hmem; simp at hmem
    · rw [hc] at hmem; simp at hmem
    · rw [hc] at hmem; simp at hmem
    · rw [hc] at hmem
      obtain ⟨r1, r2, r3, r4⟩ := namespacesCalls_reads c
        (SetupImagePullCreds.nsFilter (NewService conf) req) cfg items2 w2
      have hitems : items = items2 := by
        rcases List.mem_append.mp hmem with h | h
        · simp at h; exact h
        · obtain ⟨n2, h1, -, -⟩ := r1 _ h
          cases h1
      subst hitems
      rw [hc, hrun]
      have e1 : ([Call.CreateDockerCFG (Result.ok cfg), Call.NamespacesList (Result.ok items)] ++
          namespacesCalls c (SetupImagePullCreds.nsFilter (NewService conf) req) cfg items
            w2).filterMap Call.secretGet? =
          (namespacesCalls c (SetupImagePullCreds.nsFilter (NewService conf) req) cfg items
            w2).filterMap Call.secretGet? := by
        simp [List.filterMap_append, Call.secretGet?]
      have e2 : ([Call.CreateDockerCFG (Result.ok cfg), Call.NamespacesList (Result.ok items)] ++
          namespacesCalls c (SetupImagePullCreds.nsFilter (NewService conf) req) cfg items
            w2).filterMap Call.accountList? =
          (namespacesCalls c (SetupImagePullCreds.nsFilter (NewService conf) req) cfg items
            w2).filterMap Call.accountList? := by
        simp [List.filterMap_append, Call.accountList?]
      rw [e1, e2]
      refine ⟨r2, r3, ?_⟩
      intro hok
      apply r4
      rcases hn : SetupImagePullCreds.namespaces c
        (SetupImagePullCreds.nsFilter (NewService conf) req) cfg items w2 with ⟨o, w3⟩
      rw [hn] at hok
      cases o <;> simp [runOutcome] at hok ⊢

theorem failed_iff_abortsWith (call : Call) :
    call.failed = true ↔ call.abortsWith ≠ none := by
  cases call with
  | CreateDockerCFG r => cases r <;> simp [Call.failed, Call.abortsWith]
  | NamespacesList r => cases r <;> simp [Call.failed, Call.abortsWith]
  | SecretsGet ns name r =>
    cases r with
    | ok v => simp [Call.failed, Call.abortsWith]
    | err e => cases h : IsNotFound e <;> simp [Call.failed, Call.abortsWith, h]
  | SecretsCreate ns obj r => cases r <;> simp [Call.failed, Call.abortsWith]
  | SecretsUpdate ns obj r => cases r <;> simp [Call.failed, Call.abortsWith]
  | ServiceAccountsList ns r => cases r <;> simp [Call.failed, Call.abortsWith]
  | ServiceAccountsUpdate ns obj r => cases r <;> simp [Call.failed, Call.abortsWith]

theorem abortLog_append {α : Type} {out : Outcome α} (l1 l2 : List Call)
    (h1 : ∀ x ∈ l1, x.abortsWith = none) (h2 : AbortLog l2 out) : AbortLog (l1 ++ l2) out := by
  cases out with
  | error e =>
    obtain ⟨pre, last, hl, hp, hlast⟩ := h2
    refine ⟨l1 ++ pre, last, by rw [hl, List.append_assoc], ?_, hlast⟩
    intro x hx
    rcases List.mem_append.mp hx with h | h
    · exact h1 x h
    · exact hp x h
  | ok v =>
    intro x hx
    rcases List.mem_append.mp hx with h | h
    · exact h1 x h
    · exact h2 x h
  | panic m =>
    intro x hx
    rcases List.mem_append.mp hx with h | h
    · exact h1 x h
    · exact h2 x h

theorem abortLog_single_error {α : Type} (call : Call) (e : Error)
    (h : call.abortsWith = some e) : AbortLog (α := α) [call] (.error e) :=
  ⟨[], call, rfl, by simp, h⟩

theorem ensure_abortLog (c : Client σ) (ns : Namespace) (cfg : Bytes) (w : σ) :
    AbortLog (ensureCalls c ns cfg w) (ensureImagePullSecret c ns cfg w).1 := by
  rcases ensure_cases c ns cfg w with ⟨e, w1, -, hnf, ho, h⟩ | ⟨e, w1, r, w2, -, hnf, -, ho, h⟩ |
    ⟨ex, w1, -, -, ho, h⟩ | ⟨ex, d, w1, r, w2, -, -, -, ho, h⟩
  · rw [h, ho]
    exact abortLog_single_error _ _ (by simp [Call.abortsWith, hnf])
  · rw [h, ho]
    cases r with
    | ok v =>
      intro x hx
      simp at hx
      rcases hx with rfl | rfl <;> simp [Call.abortsWith, hnf]
    | err e2 =>
      exact ⟨[_], _, rfl, by simp [Call.abortsWith, hnf], by simp [Call.abortsWith]⟩
  · rw [h, ho]
    intro x hx
    simp at hx
    subst hx
    simp [Call.abortsWith]
  · rw [h, ho]
    cases r with
    | ok v =>
      intro x hx
      simp at hx
      rcases hx with rfl | rfl <;> simp [Call.abortsWith]
    | err e2 =>
      exact ⟨[_], _, rfl, by simp [Call.abortsWith], by simp [Call.abortsWith]⟩

theorem accounts_abortLog (c : Client σ) (nsName : String) (accts : List ServiceAccount) :
    ∀ (w : σ), AbortLog (accountsCalls c nsName accts w)
      (SetupImagePullCreds.accounts c nsName accts w).1 := by
  induction accts with
  | nil =>
    intro w
    simp [accountsCalls_nil, SetupImagePullCreds.accounts, AbortLog]
  | cons a rest ih =>
    intro w
    cases h : hasPullSecret a with
    | true =>
      rw [accountsCalls_skip c nsName a rest w h, accounts_skip c nsName a rest w h]
      exact ih w
    | false =>
      rw [accountsCalls_update c nsName a rest w h, accounts_update c nsName a rest w h]
      rcases hup : c.ServiceAccountsUpdate nsName (addPullSecret a) w with ⟨r, w1⟩
      cases r with
      | err e => exact abortLog_single_error _ _ (by simp [Call.abortsWith])
      | ok v =>
        exact abortLog_append [_] _ (by simp [Call.abortsWith]) (ih w1)

theorem body_abortLog (c : Client σ) (cfg : Bytes) (ns : Namespace) (w : σ) :
    AbortLog (bodyCalls c cfg ns w) (SetupImagePullCreds.namespaceBody c cfg ns w).1 := by
  have he := ensure_abortLog c ns cfg w
  rcases body_cases c cfg ns w with ⟨e, w1, hen, hb, h⟩ | ⟨m, w1, hen, hb, h⟩ |
    ⟨w1, e, w2, hen, -, hb, h⟩ | ⟨w1, accts, w2, hen, -, hb, h⟩
  · rw [h, hb]; rw [hen] at he; exact he
  · rw [h, hb]; rw [hen] at he; exact he
  · rw [h, hb]; rw [hen] at he
    exact abortLog_append _ _ he (abortLog_single_error _ _ (by simp [Call.abortsWith]))
  · rw [h, hb]; rw [hen] at he
    rw [List.append_assoc]
    refine abortLog_append _ _ he ?_
    exact abortLog_append [_] _ (by simp [Call.abortsWith]) (accounts_abortLog c ns.Name accts w2)

theorem namespaces_abortLog (c : Client σ) (f : String → Bool) (cfg : Bytes)
    (items : List Namespace) :
    ∀ (w : σ), AbortLog (namespacesCalls c f cfg items w)
      (SetupImagePullCreds.namespaces c f cfg items w).1 := by
  induction items with
  | nil =>
    intro w
    simp [namespacesCalls, SetupImagePullCreds.namespaces, AbortLog]
  | cons ns rest ih =>
    intro w
    cases hf : f ns.Name with
    | false =>
      rw [namespacesCalls_skip c f cfg ns rest w hf, namespaces_skip c f cfg ns rest w hf]
      exact ih w
    | true =>
      have hb0 := body_abortLog c cfg ns w
      rcases hb : SetupImagePullCreds.namespaceBody c cfg ns w with ⟨r, w1⟩
      rw [hb] at hb0
      cases r with
      | ok u =>
        obtain ⟨hn, hcalls⟩ := namespaces_step_ok c f cfg ns rest w w1 hf hb
        rw [hn, hcalls]
        exact abortLog_append _ _ hb0 (ih w1)
      | error e =>
        obtain ⟨hn, hcalls⟩ := namespaces_step_error c f cfg ns rest w w1 e hf hb
        rw [hn, hcalls]
        exact hb0
      | panic m =>
        obtain ⟨hn, hcalls⟩ := namespaces_step_panic c f cfg ns rest w w1 m hf hb
        rw [hn, hcalls]
        exact hb0

theorem abortLog_runOutcome (calls : List Call) (o : Outcome Unit) (h : AbortLog calls o) :
    AbortLog calls (runOutcome o) := by
  cases o <;> exact h

theorem setup_abortLog (s : Service σ) (env : ClientEnv σ) (req : SetupImagePullCredsReqeust)
    (w : σ) (c : Client σ) (hc : newClient env = .ok c) :
    AbortLog (setupCalls s env req w) (SetupImagePullCreds s env req w).1 := by
  rcases setup_cases s env req w with ⟨e, hc2, -, -⟩ | ⟨c, e, w1, -, -, ho, h⟩ |
    ⟨c, cfg, w1, e, w2, -, -, -, ho, h⟩ | ⟨c, cfg, w1, items, w2, -, -, -, ho, h⟩
  · rw [hc] at hc2; cases hc2
  · rw [h, ho]
    exact abortLog_single_error _ _ (by simp [Call.abortsWith])
  · rw [h, ho]
    exact ⟨[_], _, rfl, by simp [Call.abortsWith], by simp [Call.abortsWith]⟩
  · rw [h, ho]
    refine abortLog_append _ _ (by simp [Call.abortsWith]) ?_
    exact abortLog_runOutcome _ _ (namespaces_abortLog c _ cfg items w2)

theorem newClient_err (env : ClientEnv σ) (e : Error) (h : newClient env = .err e) :
    ∃ inner,
      (env.BuildConfigFromFlags "" env.GetDefaultFilename = .err inner ∧
        e = .errorf "error reading out-of-cluster config" inner) ∨
      (∃ cfg, env.NewForConfig cfg = .err inner ∧ e = .errorf "error getting clientset" inner) := by
  unfold newClient at h
  cases h1 : env.InClusterConfig with
  | ok cfg =>
    rw [h1] at h
    simp only at h
    cases h2 : env.NewForConfig cfg with
    | ok c => rw [h2] at h; cases h
    | err inner =>
      rw [h2] at h
      simp only [Result.err.injEq] at h
      exact ⟨inner, Or.inr ⟨cfg, h2, h.symm⟩⟩
  | err e0 =>
    rw [h1] at h
    simp only at h
    cases h3 : env.BuildConfigFromFlags "" env.GetDefaultFilename with
    | err inner =>
      rw [h3] at h
      simp only [Result.err.injEq] at h
      exact ⟨inner, Or.inl ⟨rfl, h.symm⟩⟩
    | ok cfg =>
      rw [h3] at h
      simp only at h
      cases h2 : env.NewForConfig cfg with
      | ok c => rw [h2] at h; cases h
      | err inner =>
        rw [h2] at h
        simp only [Result.err.injEq] at h
        exact ⟨inner, Or.inr ⟨cfg, h2, h.symm⟩⟩

theorem abortsWith_cases (call : Call) (err : Error) (h : call.abortsWith = some err) :
    ∃ inner,
      (call = Call.CreateDockerCFG (.err inner) ∧ err = inner) ∨
      (call = Call.NamespacesList (.err inner) ∧ err = inner) ∨
      (∃ ns name, call = Call.SecretsGet ns name (.err inner) ∧ IsNotFound inner = false ∧
        err = .errorf "error reading secret" inner) ∨
      (∃ ns obj, call = Call.SecretsCreate ns obj (.err inner) ∧
        err = .errorf "error creating secret" inner) ∨
      (∃ ns obj, call = Call.SecretsUpdate ns obj (.err inner) ∧
        err = .errorf "error updating secret" inner) ∨
      (∃ ns, call = Call.ServiceAccountsList ns (.err inner) ∧ err = inner) ∨
      (∃ ns obj, call = Call.ServiceAccountsUpdate ns obj (.err inner) ∧ err = inner) := by
  cases call with
  | CreateDockerCFG r =>
    cases r with
    | ok v => simp [Call.abortsWith] at h
    | err e => simp [Call.abortsWith] at h; exact ⟨e, Or.inl ⟨rfl, h.symm⟩⟩
  | NamespacesList r =>
    cases r with
    | ok v => simp [Call.abortsWith] at h
    | err e => simp [Call.abortsWith] at h; exact ⟨e, Or.inr (Or.inl ⟨rfl, h.symm⟩)⟩
  | SecretsGet ns name r =>
    cases r with
    | ok v => simp [Call.abortsWith] at h
    | err e =>
      cases hnf : IsNotFound e with
      | true => simp [Call.abortsWith, hnf] at h
      | false =>
        simp [Call.abortsWith, hnf, Errorf] at h
        exact ⟨e, Or.inr (Or.inr (Or.inl ⟨ns, name, rfl, hnf, h.symm⟩))⟩
  | SecretsCreate ns obj r =>
    cases r with
    | ok v => simp [Call.abortsWith] at h
    | err e =>
      simp [Call.abortsWith, Errorf] at h
      exact ⟨e, Or.inr (Or.inr (Or.inr (Or.inl ⟨ns, obj, rfl, h.symm⟩)))⟩
  | SecretsUpdate ns obj r =>
    cases r with
    | ok v => simp [Call.abortsWith] at h
    | err e =>
      simp [Call.abortsWith, Errorf] at h
      exact ⟨e, Or.inr (Or.inr (Or.inr (Or.inr (Or.inl ⟨ns, obj, rfl, h.symm⟩))))⟩
  | ServiceAccountsList ns r =>
    cases r with
    | ok v => simp [Call.abortsWith] at h
    | err e =>
      simp [Call.abortsWith] at h
      exact ⟨e, Or.inr (Or.inr (Or.inr (Or.inr (Or.inr (Or.inl ⟨ns, rfl, h.symm⟩)))))⟩
  | ServiceAccountsUpdate ns obj r =>
    cases r with
    | ok v => simp [Call.abortsWith] at h
    | err e =>
      simp [Call.abortsWith] at h
      exact ⟨e, Or.inr (Or.inr (Or.inr (Or.inr (Or.inr (Or.inr ⟨ns, obj, rfl, h.symm⟩)))))⟩

/-- C10 (as stated, refuted): the namespace listing fails with the client's error
`context deadline exceeded`; the run returns that very error, which is not a wrapper
around anything, so the returned error does not name the step that failed. -/
theorem setup_listing_error_returned_unwrapped :
    SetupImagePullCreds Example.service.traced Example.env.traced Example.noList
        ({ cluster := Example.fresh, faults := [some Example.timeout] }, []) =
      (.error Example.timeout, { cluster := Example.fresh, faults := [] },
        [Call.CreateDockerCFG (.ok [1, 2]), Call.NamespacesList (.err Example.timeout)]) ∧
    ∀ msg inner, Example.timeout ≠ Error.errorf msg inner :=
  ⟨by decide, by intro msg inner h; cases h⟩

/-- C10 (amended): when `SetupImagePullCreds` returns an error, either no call was made
and the error is the failure of `BuildConfigFromFlags` wrapped as "error reading
out-of-cluster config" or the failure of `NewForConfig` wrapped as "error getting
clientset"; or the log ends with the failed call, and the returned error is that call's
error wrapped as "error reading secret", "error creating secret" or "error updating
secret" for the three secret calls, and that call's error itself, unwrapped, for the
provider call, the namespace listing, the service-account listing and the
service-account update. -/
theorem setup_error_wrapping (s : Service σ) (env : ClientEnv σ)
    (req : SetupImagePullCredsReqeust) (w : σ) (err : Error)
    (h : (SetupImagePullCreds s.traced env.traced req (w, [])).1 = .error err) :
    ((SetupImagePullCreds s.traced env.traced req (w, [])).2.2 = [] ∧
      ∃ inner,
        (env.BuildConfigFromFlags "" env.GetDefaultFilename = .err inner ∧
          err = .errorf "error reading out-of-cluster config" inner) ∨
        (∃ cfg, env.NewForConfig cfg = .err inner ∧
          err = .errorf "error getting clientset" inner)) ∨
    (∃ pre last inner,
      (SetupImagePullCreds s.traced env.traced req (w, [])).2.2 = pre ++ [last] ∧
      ((last = Call.CreateDockerCFG (.err inner) ∧ err = inner) ∨
        (last = Call.NamespacesList (.err inner) ∧ err = inner) ∨
        (∃ ns name, last = Call.SecretsGet ns name (.err inner) ∧ IsNotFound inner = false ∧
          err = .errorf "error reading secret" inner) ∨
        (∃ ns obj, last = Call.SecretsCreate ns obj (.err inner) ∧
          err = .errorf "error creating secret" inner) ∨
        (∃ ns obj, last = Call.SecretsUpdate ns obj (.err inner) ∧
          err = .errorf "error updating secret" inner) ∨
        (∃ ns, last = Call.ServiceAccountsList ns (.err inner) ∧ err = inner) ∨
        (∃ ns obj, last = Call.ServiceAccountsUpdate ns obj (.err inner) ∧ err = inner))) := by
  have hlog : (SetupImagePullCreds s.traced env.traced req (w, [])).2.2 =
      setupCalls s env req w := rfl
  have hout : (SetupImagePullCreds s.traced env.traced req (w, [])).1 =
      (SetupImagePullCreds s env req w).1 := by rw [setup_traced]
  rw [hout] at h
  rw [hlog]
  cases hc : newClient env with
  | err e =>
    left
    rcases setup_cases s env req w with ⟨e2, hc2, ho, hcalls⟩ | ⟨c, e2, w1, hc2, -⟩ |
      ⟨c, cfg, w1, e2, w2, hc2, -⟩ | ⟨c, cfg, w1, items, w2, hc2, -⟩
    · rw [ho] at h
      simp only [Outcome.error.injEq] at h
      subst h
      exact ⟨hcalls, newClient_err env e2 hc2⟩
    · rw [hc] at hc2; cases hc2
    · rw [hc] at hc2; cases hc2
    · rw [hc] at hc2; cases hc2
  | ok c =>
    right
    have hab := setup_abortLog s env req w c hc
    rw [h] at hab
    obtain ⟨pre, last, hl, -, hlast⟩ := hab
    obtain ⟨inner, hcases⟩ := abortsWith_cases last err hlast
    exact ⟨pre, last, inner, hl, hcases⟩

/-- Witness for C10: the secret create in `default` fails with `Example.timeout`; the run
returns that error wrapped as "error creating secret". -/
theorem setup_error_wrapping_witness :
    (SetupImagePullCreds Example.service.traced Example.env.traced Example.noList
        ({ cluster := Example.fresh, faults := [none, none, some Example.timeout] }, [])).1 =
      .error (.errorf "error creating secret" Example.timeout) ∧
    (((SetupImagePullCreds Example.service.traced Example.env.traced Example.noList
        ({ cluster := Example.fresh, faults := [none, none, some Example.timeout] }, [])).2.2 =
          [] ∧
      ∃ inner,
        (Example.env.BuildConfigFromFlags "" Example.env.GetDefaultFilename = .err inner ∧
          Error.errorf "error creating secret" Example.timeout =
            .errorf "error reading out-of-cluster config" inner) ∨
        (∃ cfg, Example.env.NewForConfig cfg = .err inner ∧
          Error.errorf "error creating secret" Example.timeout =
            .errorf "error getting clientset" inner)) ∨
    (∃ pre last inner,
      (SetupImagePullCreds Example.service.traced Example.env.traced Example.noList
        ({ cluster := Example.fresh, faults := [none, none, some Example.timeout] }, [])).2.2 =
          pre ++ [last] ∧
      ((last = Call.CreateDockerCFG (.err inner) ∧
          Error.errorf "error creating secret" Example.timeout = inner) ∨
        (last = Call.NamespacesList (.err inner) ∧
          Error.errorf "error creating secret" Example.timeout = inner) ∨
        (∃ ns name, last = Call.SecretsGet ns name (.err inner) ∧ IsNotFound inner = false ∧
          Error.errorf "error creating secret" Example.timeout =
            .errorf "error reading secret" inner) ∨
        (∃ ns obj, last = Call.SecretsCreate ns obj (.err inner) ∧
          Error.errorf "error creating secret" Example.timeout =
            .errorf "error creating secret" inner) ∨
        (∃ ns obj, last = Call.SecretsUpdate ns obj (.err inner) ∧
          Error.errorf "error creating secret" Example.timeout =
            .errorf "error updating secret" inner) ∨
        (∃ ns, last = Call.ServiceAccountsList ns (.err inner) ∧
          Error.errorf "error creating secret" Example.timeout = inner) ∨
        (∃ ns obj, last = Call.ServiceAccountsUpdate ns obj (.err inner) ∧
          Error.errorf "error creating secret" Example.timeout = inner)))) :=
  ⟨by decide,
    setup_error_wrapping Example.service Example.env Example.noList
      { cluster := Example.fresh, faults := [none, none, some Example.timeout] }
      (.errorf "error creating secret" Example.timeout) (by decide)⟩

/-! ### The cluster store: what each call does to the cluster -/

theorem store_call_cases {α : Type} (op : Cluster → Result α × Cluster) (s : Store) :
    (∃ e, (Store.call op s).1 = .err e ∧ (Store.call op s).2.cluster = s.cluster) ∨
      ((Store.call op s).1 = (op s.cluster).1 ∧
        (Store.call op s).2.cluster = (op s.cluster).2) := by
  rcases s with ⟨cl, fl⟩
  rcases fl with _ | ⟨f, fl⟩
  · right; exact ⟨rfl, rfl⟩
  · cases f with
    | none => right; exact ⟨rfl, rfl⟩
    | some e => left; exact ⟨e, rfl, rfl⟩

theorem store_NamespacesList (s : Store) :
    (storeClient.NamespacesList s).2.cluster = s.cluster ∧
      ∀ items, (storeClient.NamespacesList s).1 = .ok items → items = s.cluster.namespaces := by
  rcases store_call_cases Cluster.listNamespaces s with ⟨e, h1, h2⟩ | ⟨h1, h2⟩
  · refine ⟨h2, ?_⟩
    intro items h
    change (Store.call Cluster.listNamespaces s).1 = _ at h
    rw [h1] at h; cases h
  · refine ⟨h2, ?_⟩
    intro items h
    change (Store.call Cluster.listNamespaces s).1 = _ at h
    rw [h1] at h
    simp only [Cluster.listNamespaces, Result.ok.injEq] at h
    exact h.symm

theorem getSecret_cluster (ns name : String) (cl : Cluster) :
    (Cluster.getSecret ns name cl).2 = cl := by
  unfold Cluster.getSecret
  split <;> rfl

theorem store_SecretsGet (ns name : String) (s : Store) :
    (storeClient.SecretsGet ns name s).2.cluster = s.cluster ∧
      ∀ sec, (storeClient.SecretsGet ns name s).1 = .ok sec →
        s.cluster.secrets.find? (Secret.hasKey ns name) = some sec := by
  rcases store_call_cases (Cluster.getSecret ns name) s with ⟨e, h1, h2⟩ | ⟨h1, h2⟩
  · refine ⟨h2, ?_⟩
    intro sec h
    change (Store.call (Cluster.getSecret ns name) s).1 = _ at h
    rw [h1] at h; cases h
  · refine ⟨by rw [show (storeClient.SecretsGet ns name s).2.cluster = _ from h2,
      getSecret_cluster], ?_⟩
    intro sec h
    change (Store.call (Cluster.getSecret ns name) s).1 = _ at h
    rw [h1] at h
    unfold Cluster.getSecret at h
    split at h
    · rename_i s0 hs0
      simp only [Result.ok.injEq] at h
      rw [hs0, h]
    · cases h

theorem store_SecretsCreate (ns : String) (obj : Secret) (s : Store) :
    (∃ e, (storeClient.SecretsCreate ns obj s).1 = .err e ∧
        (storeClient.SecretsCreate ns obj s).2.cluster = s.cluster) ∨
      ((storeClient.SecretsCreate ns obj s).1 = .ok obj ∧ obj.Namespace = ns ∧
        s.cluster.secrets.any (Secret.hasKey ns obj.Name) = false ∧
        (storeClient.SecretsCreate ns obj s).2.cluster =
          { s.cluster with secrets := s.cluster.secrets ++ [obj] }) := by
  rcases store_call_cases (Cluster.createSecret ns obj) s with ⟨e, h1, h2⟩ | ⟨h1, h2⟩
  · left; exact ⟨e, h1, h2⟩
  · change (storeClient.SecretsCreate ns obj s).1 = _ at h1
    change (storeClient.SecretsCreate ns obj s).2.cluster = _ at h2
    rw [h1, h2]
    unfold Cluster.createSecret
    by_cases hns : obj.Namespace = ns
    · cases hany : s.cluster.secrets.any (Secret.hasKey ns obj.Name) with
      | true =>
        left
        exact ⟨.collab false "secret already exists", by simp [hns, hany], by simp [hns, hany]⟩
      | false => right; exact ⟨by simp [hns, hany], hns, rfl, by simp [hns, hany]⟩
    · left; exact ⟨.collab false "namespace mismatch", by simp [hns], by simp [hns]⟩

theorem store_SecretsUpdate (ns : String) (obj : Secret) (s : Store) :
    (∃ e, (storeClient.SecretsUpdate ns obj s).1 = .err e ∧
        (storeClient.SecretsUpdate ns obj s).2.cluster = s.cluster) ∨
      ((storeClient.SecretsUpdate ns obj s).1 = .ok obj ∧ obj.Namespace = ns ∧
        (storeClient.SecretsUpdate ns obj s).2.cluster =
          { s.cluster with secrets :=
              s.cluster.secrets.map (fun x => if Secret.hasKey ns obj.Name x then obj else x) }) := by
  rcases store_call_cases (Cluster.updateSecret ns obj) s with ⟨e, h1, h2⟩ | ⟨h1, h2⟩
  · left; exact ⟨e, h1, h2⟩
  · change (storeClient.SecretsUpdate ns obj s).1 = _ at h1
    change (storeClient.SecretsUpdate ns obj s).2.cluster = _ at h2
    rw [h1, h2]
    unfold Cluster.updateSecret
    by_cases hns : obj.Namespace = ns
    · cases hany : s.cluster.secrets.any (Secret.hasKey ns obj.Name) with
      | true => right; exact ⟨by simp [hns, hany], hns, by simp [hns, hany]⟩
      | false =>
        left
        exact ⟨.collab true "secret not found", by simp [hns, hany], by simp [hns, hany]⟩
    · left; exact ⟨.collab false "namespace mismatch", by simp [hns], by simp [hns]⟩

theorem store_ServiceAccountsList (ns : String) (s : Store) :
    (storeClient.ServiceAccountsList ns s).2.cluster = s.cluster ∧
      ∀ accts, (storeClient.ServiceAccountsList ns s).1 = .ok accts →
        accts = s.cluster.serviceAccounts.filter (fun a => a.Namespace == ns) := by
  rcases store_call_cases (Cluster.listServiceAccounts ns) s with ⟨e, h1, h2⟩ | ⟨h1, h2⟩
  · refine ⟨h2, ?_⟩
    intro accts h
    change (Store.call (Cluster.listServiceAccounts ns) s).1 = _ at h
    rw [h1] at h; cases h
  · refine ⟨h2, ?_⟩
    intro accts h
    change (Store.call (Cluster.listServiceAccounts ns) s).1 = _ at h
    rw [h1] at h
    simp only [Cluster.listServiceAccounts, Result.ok.injEq] at h
    exact h.symm

theorem store_ServiceAccountsUpdate (ns : String) (obj : ServiceAccount) (s : Store) :
    (∃ e, (storeClient.ServiceAccountsUpdate ns obj s).1 = .err e ∧
        (storeClient.ServiceAccountsUpdate ns obj s).2.cluster = s.cluster) ∨
      ((storeClient.ServiceAccountsUpdate ns obj s).1 = .ok obj ∧ obj.Namespace = ns ∧
        (storeClient.ServiceAccountsUpdate ns obj s).2.cluster =
          { s.cluster with serviceAccounts := s.cluster.serviceAccounts.map (fun x =>
              if ServiceAccount.hasKey ns obj.Name x then obj else x) }) := by
  rcases store_call_cases (Cluster.updateServiceAccount ns obj) s with ⟨e, h1, h2⟩ | ⟨h1, h2⟩
  · left; exact ⟨e, h1, h2⟩
  · change (storeClient.ServiceAccountsUpdate ns obj s).1 = _ at h1
    change (storeClient.ServiceAccountsUpdate ns obj s).2.cluster = _ at h2
    rw [h1, h2]
    unfold Cluster.updateServiceAccount
    by_cases hns : obj.Namespace = ns
    · cases hany : s.cluster.serviceAccounts.any (ServiceAccount.hasKey ns obj.Name) with
      | true => right; exact ⟨by simp [hns, hany], hns, by simp [hns, hany]⟩
      | false =>
        left
        exact ⟨.collab true "service account not found", by simp [hns, hany],
          by simp [hns, hany]⟩
    · left; exact ⟨.collab false "namespace mismatch", by simp [hns], by simp [hns]⟩

/-! ### The service-account step on the cluster store -/

theorem hasPullSecret_addPullSecret (a : ServiceAccount) :
    hasPullSecret (addPullSecret a) = true := by
  simp [hasPullSecret, addPullSecret]

theorem key_addPullSecret (a : ServiceAccount) : (addPullSecret a).key = a.key := rfl

theorem hasKey_iff_key (ns name : String) (x : ServiceAccount) :
    ServiceAccount.hasKey ns name x = true ↔ x.key = (ns, name) := by
  simp [ServiceAccount.hasKey, ServiceAccount.key, Prod.ext_iff]

theorem key_replace (ns : String) (obj x : ServiceAccount) (h : obj.Namespace = ns) :
    (if ServiceAccount.hasKey ns obj.Name x then obj else x).key = x.key := by
  by_cases hk : ServiceAccount.hasKey ns obj.Name x = true
  · rw [if_pos hk]
    rw [hasKey_iff_key] at hk
    rw [hk, ServiceAccount.key, h]
  · rw [if_neg hk]

theorem accounts_store_ok (n : String) (accts : List ServiceAccount) :
    ∀ (s s' : Store), SetupImagePullCreds.accounts storeClient n accts s = (.ok (), s') →
      (∀ a ∈ accts, a ∈ s.cluster.serviceAccounts ∧ a.Namespace = n) →
      (accts.map ServiceAccount.key).Nodup →
      (s.cluster.serviceAccounts.map ServiceAccount.key).Nodup →
      s'.cluster.namespaces = s.cluster.namespaces ∧
        s'.cluster.secrets = s.cluster.secrets ∧
        s'.cluster.serviceAccounts = s.cluster.serviceAccounts.map
          (fun x => if x ∈ accts ∧ hasPullSecret x = false then addPullSecret x else x) := by
  induction accts with
  | nil =>
    intro s s' h _ _ _
    simp only [SetupImagePullCreds.accounts, Prod.mk.injEq, true_and] at h
    subst h
    simp
  | cons a rest ih =>
    intro s s' h hmem hnd hnds
    have hrest : ∀ b ∈ rest, b ∈ s.cluster.serviceAccounts ∧ b.Namespace = n :=
      fun b hb => hmem b (List.mem_cons_of_mem _ hb)
    have hndrest : (rest.map ServiceAccount.key).Nodup := by
      rw [List.map_cons] at hnd
      exact (List.nodup_cons.mp hnd).2
    have hinj : ∀ x ∈ s.cluster.serviceAccounts, ∀ y ∈ s.cluster.serviceAccounts,
        x.key = y.key → x = y := List.inj_on_of_nodup_map hnds
    cases hhas : hasPullSecret a with
    | true =>
      rw [accounts_skip storeClient n a rest s hhas] at h
      obtain ⟨h1, h2, h3⟩ := ih s s' h hrest hndrest hnds
      refine ⟨h1, h2, ?_⟩
      rw [h3]
      apply List.map_congr_left
      intro x _
      by_cases hxa : x = a
      · subst hxa; simp [hhas]
      · simp [hxa]
    | false =>
      rw [accounts_update storeClient n a rest s hhas] at h
      obtain ⟨ha_mem, ha_ns⟩ := hmem a (List.mem_cons_self _ _)
      rcases store_ServiceAccountsUpdate n (addPullSecret a) s with ⟨e, he, -⟩ | ⟨hr, hns, hcl⟩
      · rcases hup : storeClient.ServiceAccountsUpdate n (addPullSecret a) s with ⟨r, s1⟩
        rw [hup] at he h
        simp only at he
        subst he
        simp at h
      · rcases hup : storeClient.ServiceAccountsUpdate n (addPullSecret a) s with ⟨r, s1⟩
        rw [hup] at hr hcl h
        simp only at hr hcl
        subst hr
        simp only at h
        have hg : ∀ b ∈ rest,
            (if ServiceAccount.hasKey n (addPullSecret a).Name b then addPullSecret a else b) =
              b := by
          intro b hb
          have hne : b.key ≠ a.key := by
            rw [List.map_cons] at hnd
            intro heq
            exact (List.nodup_cons.mp hnd).1 (heq ▸ List.mem_map_of_mem _ hb)
          have : ¬ ServiceAccount.hasKey n (addPullSecret a).Name b = true := by
            rw [hasKey_iff_key]
            intro hk
            apply hne
            rw [hk, ServiceAccount.key, ha_ns]
            rfl
          rw [if_neg this]
        have hmem1 : ∀ b ∈ rest, b ∈ s1.cluster.serviceAccounts ∧ b.Namespace = n := by
          intro b hb
          refine ⟨?_, (hrest b hb).2⟩
          rw [hcl]
          exact List.mem_map.mpr ⟨b, (hrest b hb).1, hg b hb⟩
        have hnds1 : (s1.cluster.serviceAccounts.map ServiceAccount.key).Nodup := by
          rw [hcl]
          simp only [List.map_map]
          have : (ServiceAccount.key ∘ fun x =>
              if ServiceAccount.hasKey n (addPullSecret a).Name x then addPullSecret a else x) =
              ServiceAccount.key := by
            funext x
            exact key_replace n (addPullSecret a) x hns
          rw [this]
          exact hnds
        obtain ⟨h1, h2, h3⟩ := ih s1 s' h hmem1 hndrest hnds1
        rw [hcl] at h1 h2 h3
        refine ⟨h1, h2, ?_⟩
        rw [h3, List.map_map]
        apply List.map_congr_left
        intro x hx
        simp only [Function.comp]
        by_cases hxa : x = a
        · subst hxa
          have hk : ServiceAccount.hasKey n (addPullSecret x).Name x = true := by
            rw [hasKey_iff_key, ServiceAccount.key, ha_ns]; rfl
          simp [hk, hasPullSecret_addPullSecret, hhas]
        · have hk : ¬ ServiceAccount.hasKey n (addPullSecret a).Name x = true := by
            rw [hasKey_iff_key]
            intro hk
            apply hxa
            apply hinj x hx a ha_mem
            rw [hk, ServiceAccount.key, ha_ns]
            rfl
          simp [hk, hxa]

theorem ensure_store_ok (ns : Namespace) (cfg : Bytes) (s s' : Store)
    (h : ensureImagePullSecret storeClient ns cfg s = (.ok (), s')) :
    s'.cluster.namespaces = s.cluster.namespaces ∧
      s'.cluster.serviceAccounts = s.cluster.serviceAccounts ∧
      ((s.cluster.secrets.any (Secret.hasKey ns.Name imagePullSecretName) = false ∧
          s'.cluster.secrets = s.cluster.secrets ++ [newPullSecret ns.Name cfg]) ∨
        (∃ ex d, s.cluster.secrets.find? (Secret.hasKey ns.Name imagePullSecretName) = some ex ∧
          ex.Data = some d ∧
          s'.cluster.secrets = s.cluster.secrets.map
            (fun x => if Secret.hasKey ns.Name imagePullSecretName x
              then updatedPullSecret ex d cfg else x))) := by
  have hg := store_SecretsGet ns.Name imagePullSecretName s
  rcases ensure_cases storeClient ns cfg s with ⟨e, w1, -, -, ho, -⟩ |
    ⟨e, w1, r, w2, hget, -, hcr, ho, -⟩ | ⟨ex, w1, -, -, ho, -⟩ |
    ⟨ex, d, w1, r, w2, hget, hd, hup, ho, -⟩
  · rw [ho] at h; cases h
  · rw [ho] at h
    rw [hget] at hg
    simp only at hg
    rcases store_SecretsCreate ns.Name (newPullSecret ns.Name cfg) w1 with ⟨e2, he, -⟩ |
      ⟨-, -, hany, hcl⟩
    · rw [hcr] at he
      simp only at he
      subst he
      simp [writeOutcome] at h
    · rw [hcr] at hcl
      simp only at hcl
      cases r with
      | err e2 => simp [writeOutcome] at h
      | ok v =>
        simp only [writeOutcome, Prod.mk.injEq, true_and] at h
        subst h
        rw [hcl, hg.1]
        refine ⟨rfl, rfl, Or.inl ⟨?_, rfl⟩⟩
        rw [hg.1] at hany
        exact hany
  · rw [ho] at h; cases h
  · rw [ho] at h
    rw [hget] at hg
    simp only at hg
    have hfind := hg.2 ex rfl
    have hkey : Secret.hasKey ns.Name imagePullSecretName ex = true := List.find?_some hfind
    have hname : (updatedPullSecret ex d cfg).Name = imagePullSecretName := by
      simp only [Secret.hasKey, Bool.and_eq_true, beq_iff_eq] at hkey
      exact hkey.2
    rcases store_SecretsUpdate ns.Name (updatedPullSecret ex d cfg) w1 with ⟨e2, he, -⟩ |
      ⟨-, -, hcl⟩
    · rw [hup] at he
      simp only at he
      subst he
      simp [writeOutcome] at h
    · rw [hup] at hcl
      simp only at hcl
      cases r with
      | err e2 => simp [writeOutcome] at h
      | ok v =>
        simp only [writeOutcome, Prod.mk.injEq, true_and] at h
        subst h
        rw [hcl, hg.1, hname]
        exact ⟨rfl, rfl, Or.inr ⟨ex, d, hfind, hd, rfl⟩⟩

theorem body_store_accounts (cfg : Bytes) (ns : Namespace) (s s' : Store)
    (h : SetupImagePullCreds.namespaceBody storeClient cfg ns s = (.ok (), s'))
    (hu : s.cluster.UniqueAccounts) :
    s'.cluster.namespaces = s.cluster.namespaces ∧
      s'.cluster.serviceAccounts = s.cluster.serviceAccounts.map
        (fun x => if x.Namespace = ns.Name ∧ hasPullSecret x = false
          then addPullSecret x else x) := by
  rcases body_cases storeClient cfg ns s with ⟨e, w1, -, hb, -⟩ | ⟨m, w1, -, hb, -⟩ |
    ⟨w1, e, w2, -, -, hb, -⟩ | ⟨w1, accts, w2, hen, hl, hb, -⟩
  · rw [hb] at h; cases h
  · rw [hb] at h; cases h
  · rw [hb] at h; cases h
  · rw [hb] at h
    obtain ⟨e1, e2, -⟩ := ensure_store_ok ns cfg s w1 hen
    have hls := store_ServiceAccountsList ns.Name w1
    rw [hl] at hls
    simp only at hls
    have haccts := hls.2 accts rfl
    have hw2 : w2.cluster.serviceAccounts = s.cluster.serviceAccounts := by rw [hls.1, e2]
    have hmem : ∀ a ∈ accts, a ∈ w2.cluster.serviceAccounts ∧ a.Namespace = ns.Name := by
      intro a ha
      rw [haccts, List.mem_filter] at ha
      rw [hls.1]
      exact ⟨ha.1, by simpa using ha.2⟩
    have hnd : (accts.map ServiceAccount.key).Nodup := by
      rw [haccts, e2]
      exact List.Nodup.sublist (List.Sublist.map _ (List.filter_sublist _)) hu
    have hnds : (w2.cluster.serviceAccounts.map ServiceAccount.key).Nodup := by
      rw [hw2]; exact hu
    obtain ⟨h1, -, h3⟩ := accounts_store_ok ns.Name accts w2 s' h hmem hnd hnds
    refine ⟨by rw [h1, hls.1, e1], ?_⟩
    rw [h3, hw2]
    apply List.map_congr_left
    intro x hx
    have : x ∈ accts ↔ x.Namespace = ns.Name := by
      rw [haccts, e2, List.mem_filter]
      simp [hx]
    simp only [this]

theorem namespaces_store_accounts (f : String → Bool) (cfg : Bytes) (items : List Namespace) :
    ∀ (s s' : Store), SetupImagePullCreds.namespaces storeClient f cfg items s = (.ok (), s') →
      s.cluster.UniqueAccounts →
      s'.cluster.namespaces = s.cluster.namespaces ∧
        s'.cluster.serviceAccounts = s.cluster.serviceAccounts.map
          (fun x => if (x.Namespace ∈ items.map (fun ns => ns.Name) ∧ f x.Namespace = true) ∧
              hasPullSecret x = false
            then addPullSecret x else x) := by
  induction items with
  | nil =>
    intro s s' h _
    simp only [SetupImagePullCreds.namespaces, Prod.mk.injEq, true_and] at h
    subst h
    simp
  | cons ns rest ih =>
    intro s s' h hu
    cases hf : f ns.Name with
    | false =>
      rw [namespaces_skip storeClient f cfg ns rest s hf] at h
      obtain ⟨h1, h2⟩ := ih s s' h hu
      refine ⟨h1, ?_⟩
      rw [h2]
      apply List.map_congr_left
      intro x _
      by_cases hx : x.Namespace = ns.Name
      · have hfx : f x.Namespace = false := by rw [hx]; exact hf
        simp [hfx]
      · simp [hx]
    | true =>
      rcases hb : SetupImagePullCreds.namespaceBody storeClient cfg ns s with ⟨r, s1⟩
      cases r with
      | error e =>
        rw [(namespaces_step_error storeClient f cfg ns rest s s1 e hf hb).1] at h
        cases h
      | panic m =>
        rw [(namespaces_step_panic storeClient f cfg ns rest s s1 m hf hb).1] at h
        cases h
      | ok u =>
        rw [(namespaces_step_ok storeClient f cfg ns rest s s1 hf hb).1] at h
        obtain ⟨b1, b2⟩ := body_store_accounts cfg ns s s1 hb hu
        have hu1 : s1.cluster.UniqueAccounts := by
          unfold Cluster.UniqueAccounts at hu ⊢
          rw [b2, List.map_map]
          have : (ServiceAccount.key ∘ fun x =>
              if x.Namespace = ns.Name ∧ hasPullSecret x = false then addPullSecret x else x) =
              ServiceAccount.key := by
            funext x
            simp only [Function.comp]
            split
            · exact key_addPullSecret x
            · rfl
          rw [this]
          exact hu
        obtain ⟨h1, h2⟩ := ih s1 s' h hu1
        refine ⟨by rw [h1, b1], ?_⟩
        rw [h2, b2, List.map_map]
        apply List.map_congr_left
        intro x _
        simp only [Function.comp]
        cases hhas : hasPullSecret x with
        | true => simp [hhas]
        | false =>
          by_cases hx : x.Namespace = ns.Name
          · have hfx : f x.Namespace = true := by rw [hx]; exact hf
            simp [hx, hfx, hasPullSecret_addPullSecret, hf]
          · simp [hx, hhas]

theorem setup_store_ok (s : Service Store) (env : ClientEnv Store)
    (req : SetupImagePullCredsReqeust) (st st' : Store)
    (henv : newClient env = .ok storeClient)
    (hrun : SetupImagePullCreds s env req st = (.ok {}, st')) :
    ∃ cfg w1 w2, s.provider.CreateDockerCFG st = (.ok cfg, w1) ∧
      storeClient.NamespacesList w1 = (.ok w1.cluster.namespaces, w2) ∧
      w2.cluster = w1.cluster ∧
      SetupImagePullCreds.namespaces storeClient (SetupImagePullCreds.nsFilter s req) cfg
        w1.cluster.namespaces w2 = (.ok (), st') ∧
      setupCalls s env req st =
        [Call.CreateDockerCFG (.ok cfg), Call.NamespacesList (.ok w1.cluster.namespaces)] ++
          namespacesCalls storeClient (SetupImagePullCreds.nsFilter s req) cfg
            w1.cluster.namespaces w2 := by
  rcases setup_cases s env req st with ⟨e, -, ho, -⟩ | ⟨c, e, w1, -, -, ho, -⟩ |
    ⟨c, cfg, w1, e, w2, -, -, -, ho, -⟩ | ⟨c, cfg, w1, items, w2, hc, hprov, hl, ho, hcalls⟩
  · rw [ho] at hrun; cases hrun
  · rw [ho] at hrun; cases hrun
  · rw [ho] at hrun; cases hrun
  · rw [henv] at hc
    simp only [Result.ok.injEq] at hc
    subst hc
    have hls := store_NamespacesList w1
    rw [hl] at hls
    simp only at hls
    have hitems := hls.2 items rfl
    subst hitems
    refine ⟨cfg, w1, w2, hprov, hl, hls.1, ?_, hcalls⟩
    rw [ho] at hrun
    rcases hn : SetupImagePullCreds.namespaces storeClient (SetupImagePullCreds.nsFilter s req)
      cfg w1.cluster.namespaces w2 with ⟨o, w3⟩
    rw [hn] at hrun
    cases o <;> simp [runOutcome] at hrun
    rw [hrun]

/-- C6 (as stated, refuted): the `default` account of `default` holds two references
named `auto-image-pull-creds` before the run; the run succeeds, makes no service-account
update, and the account still holds the name twice afterwards, not exactly once. -/
theorem setup_keeps_duplicate_references :
    Example.duplicated.UniqueAccounts ∧
    (SetupImagePullCreds Example.service Example.env Example.noList
        { cluster := Example.duplicated, faults := [] }).1 = .ok {} ∧
    (SetupImagePullCreds Example.service Example.env Example.noList
        { cluster := Example.duplicated, faults := [] }).2.cluster.serviceAccounts =
      [{ Name := "default", Namespace := "default",
         ImagePullSecrets := [{ Name := "auto-image-pull-creds" },
           { Name := "auto-image-pull-creds" }] }] ∧
    ([{ Name := "auto-image-pull-creds" }, { Name := "auto-image-pull-creds" }] :
      List LocalObjectReference).count { Name := "auto-image-pull-creds" } = 2 := by
  decide

/-- C6 (amended): on a cluster whose service accounts are identified by (namespace, name),
with a provider that does not touch the cluster, after a run that returns success every
service account of a listed namespace the filter accepts is still stored at its place
with its name, namespace, labels, secrets and automount flag unchanged; its reference
list is the old list when that already held the name `auto-image-pull-creds`, and the old
list with one such reference appended otherwise.  Hence all earlier references are kept
in order, and the name occurs `max 1 k` times where `k` is the number of times it
occurred before the run: exactly once unless it was already there more than once. -/
theorem setup_account_references (s : Service Store) (env : ClientEnv Store)
    (req : SetupImagePullCredsReqeust) (st st' : Store)
    (henv : newClient env = .ok storeClient)
    (hp : ∀ w, (s.provider.CreateDockerCFG w).2.cluster = w.cluster)
    (hu : st.cluster.UniqueAccounts)
    (hrun : SetupImagePullCreds s env req st = (.ok {}, st')) :
    st'.cluster.serviceAccounts.length = st.cluster.serviceAccounts.length ∧
    ∀ (i : Nat) (a : ServiceAccount), st.cluster.serviceAccounts[i]? = some a →
      a.Namespace ∈ st.cluster.namespaces.map (fun ns => ns.Name) →
      SetupImagePullCreds.nsFilter s req a.Namespace = true →
      ∃ a', st'.cluster.serviceAccounts[i]? = some a' ∧
        a'.Name = a.Name ∧ a'.Namespace = a.Namespace ∧ a'.Labels = a.Labels ∧
        a'.Secrets = a.Secrets ∧
        a'.AutomountServiceAccountToken = a.AutomountServiceAccountToken ∧
        (((∃ r ∈ a.ImagePullSecrets, r.Name = "auto-image-pull-creds") ∧
            a'.ImagePullSecrets = a.ImagePullSecrets) ∨
          ((∀ r ∈ a.ImagePullSecrets, r.Name ≠ "auto-image-pull-creds") ∧
            a'.ImagePullSecrets =
              a.ImagePullSecrets ++ [{ Name := "auto-image-pull-creds" }])) ∧
        a'.ImagePullSecrets.count { Name := "auto-image-pull-creds" } =
          max 1 (a.ImagePullSecrets.count { Name := "auto-image-pull-creds" }) := by
  obtain ⟨cfg, w1, w2, hprov, -, hw2, hn, -⟩ := setup_store_ok s env req st st' henv hrun
  have hw1 : w1.cluster = st.cluster := by
    have := hp st
    rw [hprov] at this
    exact this
  have hu2 : w2.cluster.UniqueAccounts := by rw [hw2, hw1]; exact hu
  obtain ⟨-, hsa⟩ := namespaces_store_accounts _ cfg _ w2 st' hn hu2
  rw [hw2, hw1] at hsa
  refine ⟨by rw [hsa, List.length_map], ?_⟩
  intro i a hi hns hflt
  rw [hsa, List.getElem?_map, hi]
  cases hhas : hasPullSecret a with
  | true =>
    refine ⟨a, by simp [hhas], rfl, rfl, rfl, rfl, rfl, ?_, ?_⟩
    · exact Or.inl ⟨(hasPullSecret_iff a).mp hhas, rfl⟩
    · obtain ⟨r, hr, hname⟩ := (hasPullSecret_iff a).mp hhas
      have hr' : ({ Name := "auto-image-pull-creds" } : LocalObjectReference) ∈
          a.ImagePullSecrets := by
        cases r
        simp only at hname
        subst hname
        exact hr
      have : 1 ≤ a.ImagePullSecrets.count { Name := "auto-image-pull-creds" } :=
        List.count_pos_iff.mpr hr'
      omega
  | false =>
    have hno : ∀ r ∈ a.ImagePullSecrets, r.Name ≠ "auto-image-pull-creds" := by
      intro r hr hname
      have : hasPullSecret a = true := (hasPullSecret_iff a).mpr ⟨r, hr, hname⟩
      rw [hhas] at this
      cases this
    have hpatch : Option.map (fun x =>
        if (x.Namespace ∈ List.map (fun ns => ns.Name) st.cluster.namespaces ∧
            SetupImagePullCreds.nsFilter s req x.Namespace = true) ∧ hasPullSecret x = false
        then addPullSecret x else x) (some a) = some (addPullSecret a) := by
      rw [Option.map_some', if_pos ⟨⟨hns, hflt⟩, hhas⟩]
    refine ⟨addPullSecret a, hpatch, rfl, rfl, rfl, rfl, rfl, ?_, ?_⟩
    · exact Or.inr ⟨hno, rfl⟩
    · have h0 : a.ImagePullSecrets.count { Name := "auto-image-pull-creds" } = 0 := by
        rw [List.count_eq_zero]
        intro hmem
        exact hno _ hmem rfl
      simp [addPullSecret, imagePullSecretName, List.count_append, h0]

/-! ### The secret step on the cluster store -/

theorem mapLookup_mapAssign (m : Entries) (k : String) (v : Bytes) :
    mapLookup (mapAssign m k v) k = some v := by
  induction m with
  | nil => simp [mapAssign, mapLookup]
  | cons kv rest ih =>
    rcases kv with ⟨k', v'⟩
    by_cases h : k' = k
    · simp [mapAssign, mapLookup, h]
    · simp [mapAssign, mapLookup, h, ih]

theorem mapLookup_mapAssign_ne (m : Entries) (k k2 : String) (v : Bytes) (hne : k2 ≠ k) :
    mapLookup (mapAssign m k v) k2 = mapLookup m k2 := by
  induction m with
  | nil => simp [mapAssign, mapLookup, hne.symm]
  | cons kv rest ih =>
    rcases kv with ⟨k', v'⟩
    by_cases h : k' = k
    · subst h
      simp [mapAssign, mapLookup, hne.symm]
    · by_cases h2 : k' = k2
      · subst h2
        simp [mapAssign, mapLookup, h]
      · simp [mapAssign, mapLookup, h, h2, ih]

theorem mapAssign_of_lookup (m : Entries) (k : String) (v : Bytes)
    (h : mapLookup m k = some v) : mapAssign m k v = m := by
  induction m with
  | nil => simp [mapLookup] at h
  | cons kv rest ih =>
    rcases kv with ⟨k', v'⟩
    by_cases hk : k' = k
    · simp only [mapLookup, hk, if_true, Option.some.injEq] at h
      simp [mapAssign, hk, h]
    · simp only [mapLookup, hk, if_false] at h
      simp [mapAssign, hk, ih h]

theorem find?_replace_same {α : Type} (p : α → Bool) (obj : α) (hobj : p obj = true)
    (l : List α) (ex : α) (h : l.find? p = some ex) :
    (l.map (fun x => if p x then obj else x)).find? p = some obj := by
  induction l with
  | nil => simp at h
  | cons x rest ih =>
    cases hx : p x with
    | true => simp [List.find?_cons, hx, hobj]
    | false =>
      rw [List.find?_cons, hx] at h
      simp only [List.map_cons, hx, Bool.false_eq_true, if_false, List.find?_cons]
      exact ih h

theorem find?_replace_other {α : Type} (p q : α → Bool) (obj : α) (hobj : q obj = false)
    (hpq : ∀ x, p x = true → q x = false) (l : List α) :
    (l.map (fun x => if p x then obj else x)).find? q = l.find? q := by
  induction l with
  | nil => rfl
  | cons x rest ih =>
    cases hx : p x with
    | true => simp [List.find?_cons, hx, hobj, hpq x hx, ih]
    | false => simp [List.find?_cons, hx, ih]

theorem hasKey_newPullSecret (n m : String) (cfg : Bytes) :
    Secret.hasKey n imagePullSecretName (newPullSecret m cfg) = (m == n) := by
  simp [Secret.hasKey, newPullSecret]

theorem ensure_store_settled (ns : Namespace) (cfg : Bytes) (s s' : Store)
    (h : ensureImagePullSecret storeClient ns cfg s = (.ok (), s')) :
    s'.cluster.Settled ns.Name cfg ∧
      ∀ n, s.cluster.Settled n cfg → s'.cluster.Settled n cfg := by
  obtain ⟨-, -, hsec⟩ := ensure_store_ok ns cfg s s' h
  rcases hsec with ⟨hany, hs'⟩ | ⟨ex, d, hfind, hd, hs'⟩
  · have hnone : s.cluster.secrets.find? (Secret.hasKey ns.Name imagePullSecretName) = none := by
      rw [List.find?_eq_none]
      intro x hx hk
      have : s.cluster.secrets.any (Secret.hasKey ns.Name imagePullSecretName) = true :=
        List.any_eq_true.mpr ⟨x, hx, hk⟩
      rw [hany] at this
      cases this
    have hnew : Secret.hasKey ns.Name imagePullSecretName (newPullSecret ns.Name cfg) = true := by
      rw [hasKey_newPullSecret]; simp
    constructor
    · refine ⟨newPullSecret ns.Name cfg, [(".dockercfg", cfg)], ?_, rfl, ?_, ?_⟩
      · rw [hs', List.find?_append, hnone]
        simp [List.find?_cons, hnew]
      · simp [mapLookup]
      · intro x hx hk
        rw [hs'] at hx
        rcases List.mem_append.mp hx with hx | hx
        · exact absurd hk (List.find?_eq_none.mp hnone x hx)
        · simpa using hx
    · intro n ⟨sec, d, hf, hd, hl, hall⟩
      have hne : ns.Name ≠ n := by
        intro heq
        rw [heq] at hnone
        rw [hnone] at hf
        cases hf
      refine ⟨sec, d, ?_, hd, hl, ?_⟩
      · rw [hs', List.find?_append, hf]
        rfl
      · intro x hx hk
        rw [hs'] at hx
        rcases List.mem_append.mp hx with hx | hx
        · exact hall x hx hk
        · simp only [List.mem_singleton] at hx
          subst hx
          rw [hasKey_newPullSecret] at hk
          simp [hne] at hk
  · have hkey : Secret.hasKey ns.Name imagePullSecretName ex = true := List.find?_some hfind
    have hkey' : Secret.hasKey ns.Name imagePullSecretName (updatedPullSecret ex d cfg) = true :=
      hkey
    constructor
    · refine ⟨updatedPullSecret ex d cfg, mapAssign d ".dockercfg" cfg, ?_, rfl,
        mapLookup_mapAssign _ _ _, ?_⟩
      · rw [hs']
        exact find?_replace_same _ _ hkey' _ ex hfind
      · intro x hx hk
        rw [hs'] at hx
        obtain ⟨y, -, hy⟩ := List.mem_map.mp hx
        by_cases hyk : Secret.hasKey ns.Name imagePullSecretName y = true
        · rw [if_pos hyk] at hy; exact hy.symm
        · rw [if_neg hyk] at hy
          subst hy
          exact absurd hk hyk
    · intro n hn
      by_cases hne : n = ns.Name
      · subst hne
        obtain ⟨sec, d2, hf, hd2, hl, hall⟩ := hn
        rw [hfind] at hf
        simp only [Option.some.injEq] at hf
        subst hf
        refine ⟨updatedPullSecret ex d cfg, mapAssign d ".dockercfg" cfg, ?_, rfl,
          mapLookup_mapAssign _ _ _, ?_⟩
        · rw [hs']
          exact find?_replace_same _ _ hkey' _ ex hfind
        · intro x hx hk
          rw [hs'] at hx
          obtain ⟨y, -, hy⟩ := List.mem_map.mp hx
          by_cases hyk : Secret.hasKey ns.Name imagePullSecretName y = true
          · rw [if_pos hyk] at hy; exact hy.symm
          · rw [if_neg hyk] at hy
            subst hy
            exact absurd hk hyk
      · obtain ⟨sec, d2, hf, hd2, hl, hall⟩ := hn
        have hpq : ∀ x, Secret.hasKey ns.Name imagePullSecretName x = true →
            Secret.hasKey n imagePullSecretName x = false := by
          intro x hx
          simp only [Secret.hasKey, Bool.and_eq_true, beq_iff_eq] at hx
          simp only [Secret.hasKey, Bool.and_eq_false_iff, beq_eq_false_iff_ne]
          left
          rw [hx.1]
          exact fun h => hne h.symm
        refine ⟨sec, d2, ?_, hd2, hl, ?_⟩
        · rw [hs']
          rw [find?_replace_other _ _ _ (hpq _ hkey') hpq]
          exact hf
        · intro x hx hk
          rw [hs'] at hx
          obtain ⟨y, hy_mem, hy⟩ := List.mem_map.mp hx
          by_cases hyk : Secret.hasKey ns.Name imagePullSecretName y = true
          · rw [if_pos hyk] at hy
            subst hy
            rw [hpq _ hkey'] at hk
            cases hk
          · rw [if_neg hyk] at hy
            subst hy
            exact hall _ hy_mem hk

theorem settled_of_secrets_eq (c1 c2 : Cluster) (n : String) (cfg : Bytes)
    (h : c2.secrets = c1.secrets) (hs : c1.Settled n cfg) : c2.Settled n cfg := by
  unfold Cluster.Settled at hs ⊢
  rw [h]
  exact hs

theorem allPatched_of_accounts_eq (c1 c2 : Cluster) (n : String)
    (h : c2.serviceAccounts = c1.serviceAccounts) (hs : c1.AllPatched n) : c2.AllPatched n := by
  unfold Cluster.AllPatched at hs ⊢
  rw [h]
  exact hs

theorem account_update_frame (n : String) (a : ServiceAccount) (s : Store) :
    (storeClient.ServiceAccountsUpdate n (addPullSecret a) s).2.cluster.secrets =
        s.cluster.secrets ∧
      (storeClient.ServiceAccountsUpdate n (addPullSecret a) s).2.cluster.namespaces =
        s.cluster.namespaces ∧
      ∀ m, s.cluster.AllPatched m →
        (storeClient.ServiceAccountsUpdate n (addPullSecret a) s).2.cluster.AllPatched m := by
  rcases store_ServiceAccountsUpdate n (addPullSecret a) s with ⟨e, -, hcl⟩ | ⟨-, -, hcl⟩
  · rw [hcl]
    exact ⟨rfl, rfl, fun m h => h⟩
  · rw [hcl]
    refine ⟨rfl, rfl, ?_⟩
    intro m hm x hx hxm
    simp only [List.mem_map] at hx
    obtain ⟨y, hy, hyx⟩ := hx
    by_cases hk : ServiceAccount.hasKey n (addPullSecret a).Name y = true
    · rw [if_pos hk] at hyx
      subst hyx
      exact hasPullSecret_addPullSecret a
    · rw [if_neg hk] at hyx
      subst hyx
      exact hm _ hy hxm

theorem accounts_store_frame (n : String) (accts : List ServiceAccount) :
    ∀ (s : Store),
      (SetupImagePullCreds.accounts storeClient n accts s).2.cluster.secrets =
          s.cluster.secrets ∧
        (SetupImagePullCreds.accounts storeClient n accts s).2.cluster.namespaces =
          s.cluster.namespaces ∧
        ∀ m, s.cluster.AllPatched m →
          (SetupImagePullCreds.accounts storeClient n accts s).2.cluster.AllPatched m := by
  induction accts with
  | nil => intro s; exact ⟨rfl, rfl, fun m h => h⟩
  | cons a rest ih =>
    intro s
    cases hhas : hasPullSecret a with
    | true =>
      rw [accounts_skip storeClient n a rest s hhas]
      exact ih s
    | false =>
      rw [accounts_update storeClient n a rest s hhas]
      obtain ⟨f1, f2, f3⟩ := account_update_frame n a s
      rcases hup : storeClient.ServiceAccountsUpdate n (addPullSecret a) s with ⟨r, s1⟩
      rw [hup] at f1 f2 f3
      simp only at f1 f2 f3
      cases r with
      | err e => exact ⟨f1, f2, f3⟩
      | ok v =>
        obtain ⟨i1, i2, i3⟩ := ih s1
        exact ⟨by rw [i1, f1], by rw [i2, f2], fun m h => i3 m (f3 m h)⟩

theorem accounts_store_patched (n : String) (accts : List ServiceAccount) :
    ∀ (s s' : Store), SetupImagePullCreds.accounts storeClient n accts s = (.ok (), s') →
      (∀ a ∈ accts, a.Namespace = n) →
      (∀ x ∈ s.cluster.serviceAccounts, x.Namespace = n → hasPullSecret x = true ∨ x ∈ accts) →
      s'.cluster.AllPatched n := by
  induction accts with
  | nil =>
    intro s s' h _ hall
    simp only [SetupImagePullCreds.accounts, Prod.mk.injEq, true_and] at h
    subst h
    intro x hx hxn
    rcases hall x hx hxn with h | h
    · exact h
    · simp at h
  | cons a rest ih =>
    intro s s' h hns hall
    have hnsrest : ∀ b ∈ rest, b.Namespace = n := fun b hb => hns b (List.mem_cons_of_mem _ hb)
    cases hhas : hasPullSecret a with
    | true =>
      rw [accounts_skip storeClient n a rest s hhas] at h
      apply ih s s' h hnsrest
      intro x hx hxn
      rcases hall x hx hxn with h1 | h1
      · exact Or.inl h1
      · rcases List.mem_cons.mp h1 with rfl | h2
        · exact Or.inl hhas
        · exact Or.inr h2
    | false =>
      rw [accounts_update storeClient n a rest s hhas] at h
      rcases store_ServiceAccountsUpdate n (addPullSecret a) s with ⟨e, he, -⟩ | ⟨hr, -, hcl⟩
      · rcases hup : storeClient.ServiceAccountsUpdate n (addPullSecret a) s with ⟨r, s1⟩
        rw [hup] at he h
        simp only at he
        subst he
        simp at h
      · rcases hup : storeClient.ServiceAccountsUpdate n (addPullSecret a) s with ⟨r, s1⟩
        rw [hup] at hr hcl h
        simp only at hr hcl
        subst hr
        simp only at h
        apply ih s1 s' h hnsrest
        intro x hx hxn
        rw [hcl] at hx
        simp only [List.mem_map] at hx
        obtain ⟨y, hy, hyx⟩ := hx
        by_cases hk : ServiceAccount.hasKey n (addPullSecret a).Name y = true
        · rw [if_pos hk] at hyx
          subst hyx
          exact Or.inl (hasPullSecret_addPullSecret a)
        · rw [if_neg hk] at hyx
          subst hyx
          rcases hall _ hy hxn with h1 | h1
          · exact Or.inl h1
          · rcases List.mem_cons.mp h1 with rfl | h2
            · exfalso
              apply hk
              rw [hasKey_iff_key, ServiceAccount.key, hns _ (List.mem_cons_self _ _)]
              rfl
            · exact Or.inr h2

theorem body_store_settled (cfg : Bytes) (ns : Namespace) (s s' : Store)
    (h : SetupImagePullCreds.namespaceBody storeClient cfg ns s = (.ok (), s')) :
    s'.cluster.namespaces = s.cluster.namespaces ∧
      s'.cluster.Settled ns.Name cfg ∧ s'.cluster.AllPatched ns.Name ∧
      (∀ n, s.cluster.Settled n cfg → s'.cluster.Settled n cfg) ∧
      (∀ n, s.cluster.AllPatched n → s'.cluster.AllPatched n) := by
  rcases body_cases storeClient cfg ns s with ⟨e, w1, -, hb, -⟩ | ⟨m, w1, -, hb, -⟩ |
    ⟨w1, e, w2, -, -, hb, -⟩ | ⟨w1, accts, w2, hen, hl, hb, -⟩
  · rw [hb] at h; cases h
  · rw [hb] at h; cases h
  · rw [hb] at h; cases h
  · rw [hb] at h
    obtain ⟨e1, e2, -⟩ := ensure_store_ok ns cfg s w1 hen
    obtain ⟨t1, t2⟩ := ensure_store_settled ns cfg s w1 hen
    have hls := store_ServiceAccountsList ns.Name w1
    rw [hl] at hls
    simp only at hls
    have haccts := hls.2 accts rfl
    obtain ⟨f1, f2, f3⟩ := accounts_store_frame ns.Name accts w2
    rw [h] at f1 f2 f3
    simp only at f1 f2 f3
    rw [hls.1] at f1 f2
    have hpatched : s'.cluster.AllPatched ns.Name := by
      apply accounts_store_patched ns.Name accts w2 s' h
      · intro a ha
        rw [haccts, List.mem_filter] at ha
        simpa using ha.2
      · intro x hx hxn
        right
        rw [haccts, List.mem_filter]
        rw [hls.1] at hx
        exact ⟨hx, by simpa using hxn⟩
    refine ⟨by rw [f2, e1], ?_, hpatched, ?_, ?_⟩
    · exact settled_of_secrets_eq _ _ _ _ f1 t1
    · intro n hn
      exact settled_of_secrets_eq _ _ _ _ f1 (t2 n hn)
    · intro n hn
      apply f3 n
      apply allPatched_of_accounts_eq s.cluster _ n _ hn
      rw [hls.1, e2]

theorem namespaces_store_settled (f : String → Bool) (cfg : Bytes) (items : List Namespace) :
    ∀ (s s' : Store), SetupImagePullCreds.namespaces storeClient f cfg items s = (.ok (), s') →
      s'.cluster.namespaces = s.cluster.namespaces ∧
        (∀ ns ∈ items, f ns.Name = true →
          s'.cluster.Settled ns.Name cfg ∧ s'.cluster.AllPatched ns.Name) ∧
        (∀ n, s.cluster.Settled n cfg → s'.cluster.Settled n cfg) ∧
        (∀ n, s.cluster.AllPatched n → s'.cluster.AllPatched n) := by
  induction items with
  | nil =>
    intro s s' h
    simp only [SetupImagePullCreds.namespaces, Prod.mk.injEq, true_and] at h
    subst h
    exact ⟨rfl, by simp, fun n h => h, fun n h => h⟩
  | cons ns rest ih =>
    intro s s' h
    cases hf : f ns.Name with
    | false =>
      rw [namespaces_skip storeClient f cfg ns rest s hf] at h
      obtain ⟨h1, h2, h3, h4⟩ := ih s s' h
      refine ⟨h1, ?_, h3, h4⟩
      intro x hx hfx
      rcases List.mem_cons.mp hx with rfl | hx
      · rw [hf] at hfx; cases hfx
      · exact h2 x hx hfx
    | true =>
      rcases hb : SetupImagePullCreds.namespaceBody storeClient cfg ns s with ⟨r, s1⟩
      cases r with
      | error e =>
        rw [(namespaces_step_error storeClient f cfg ns rest s s1 e hf hb).1] at h
        cases h
      | panic m =>
        rw [(namespaces_step_panic storeClient f cfg ns rest s s1 m hf hb).1] at h
        cases h
      | ok u =>
        rw [(namespaces_step_ok storeClient f cfg ns rest s s1 hf hb).1] at h
        obtain ⟨b1, b2, b3, b4, b5⟩ := body_store_settled cfg ns s s1 hb
        obtain ⟨h1, h2, h3, h4⟩ := ih s1 s' h
        refine ⟨by rw [h1, b1], ?_, fun n hn => h3 n (b4 n hn), fun n hn => h4 n (b5 n hn)⟩
        intro x hx hfx
        rcases List.mem_cons.mp hx with rfl | hx
        · exact ⟨h3 _ b2, h4 _ b3⟩
        · exact h2 x hx hfx

/-! ### A run over a cluster that is already reconciled -/

theorem accounts_all_present (c : Client σ) (n : String) (accts : List ServiceAccount) (w : σ)
    (h : ∀ a ∈ accts, hasPullSecret a = true) :
    SetupImagePullCreds.accounts c n accts w = (.ok (), w) ∧ accountsCalls c n accts w = [] := by
  induction accts with
  | nil => exact ⟨rfl, rfl⟩
  | cons a rest ih =>
    have ha := h a (List.mem_cons_self _ _)
    rw [accounts_skip c n a rest w ha, accountsCalls_skip c n a rest w ha]
    exact ih (fun b hb => h b (List.mem_cons_of_mem _ hb))

theorem body_store_idle (cfg : Bytes) (ns : Namespace) (cl : Cluster)
    (hs : cl.Settled ns.Name cfg) (ha : cl.AllPatched ns.Name) :
    SetupImagePullCreds.namespaceBody storeClient cfg ns { cluster := cl, faults := [] } =
        (.ok (), { cluster := cl, faults := [] }) ∧
      ∀ call ∈ bodyCalls storeClient cfg ns { cluster := cl, faults := [] },
        call.accountUpdate? = none ∧ call.secretCreate? = none := by
  obtain ⟨sec, d, hf, hd, hl, hall⟩ := hs
  have hkey : Secret.hasKey ns.Name imagePullSecretName sec = true := List.find?_some hf
  have hkey2 := hkey
  simp only [Secret.hasKey, Bool.and_eq_true, beq_iff_eq] at hkey2
  have hget : storeClient.SecretsGet ns.Name imagePullSecretName { cluster := cl, faults := [] } =
      (.ok sec, { cluster := cl, faults := [] }) := by
    simp [storeClient, Store.call, Cluster.getSecret, hf]
  have hobj : updatedPullSecret sec d cfg = sec := by
    unfold updatedPullSecret
    rw [mapAssign_of_lookup d _ _ hl, ← hd]
  have hany : cl.secrets.any (Secret.hasKey ns.Name sec.Name) = true := by
    rw [hkey2.2]
    exact List.any_eq_true.mpr ⟨sec, List.mem_of_find?_eq_some hf, hkey⟩
  have hmap : cl.secrets.map (fun x => if Secret.hasKey ns.Name sec.Name x then sec else x) =
      cl.secrets := by
    rw [hkey2.2]
    conv_rhs => rw [← List.map_id cl.secrets]
    apply List.map_congr_left
    intro x hx
    by_cases hk : Secret.hasKey ns.Name imagePullSecretName x = true
    · rw [if_pos hk]; exact (hall x hx hk).symm
    · rw [if_neg hk]; rfl
  have hup : storeClient.SecretsUpdate ns.Name sec { cluster := cl, faults := [] } =
      (.ok sec, { cluster := cl, faults := [] }) := by
    simp [storeClient, Store.call, Cluster.updateSecret, hkey2.1, hany, hmap]
  have hlist : storeClient.ServiceAccountsList ns.Name { cluster := cl, faults := [] } =
      (.ok (cl.serviceAccounts.filter (fun a => a.Namespace == ns.Name)),
        { cluster := cl, faults := [] }) := rfl
  have hens : ensureImagePullSecret storeClient ns cfg { cluster := cl, faults := [] } =
      (.ok (), { cluster := cl, faults := [] }) ∧
      ensureCalls storeClient ns cfg { cluster := cl, faults := [] } =
        [Call.SecretsGet ns.Name imagePullSecretName (.ok sec),
          Call.SecretsUpdate ns.Name sec (.ok sec)] := by
    rcases ensure_cases storeClient ns cfg { cluster := cl, faults := [] } with
      ⟨e, w1, hg, -⟩ | ⟨e, w1, r, w2, hg, -⟩ | ⟨ex, w1, hg, hdn, -⟩ |
      ⟨ex, d2, w1, r, w2, hg, hd2, hu, ho, hc⟩
    · rw [hget] at hg; cases hg
    · rw [hget] at hg; cases hg
    · rw [hget] at hg
      simp only [Prod.mk.injEq, Result.ok.injEq] at hg
      rw [← hg.1, hd] at hdn
      cases hdn
    · rw [hget] at hg
      simp only [Prod.mk.injEq, Result.ok.injEq] at hg
      obtain ⟨hex, hw1⟩ := hg
      subst hex
      subst hw1
      rw [hd] at hd2
      simp only [Option.some.injEq] at hd2
      subst hd2
      rw [hobj, hup] at hu
      simp only [Prod.mk.injEq] at hu
      obtain ⟨hr, hw2⟩ := hu
      subst hr
      subst hw2
      rw [hobj] at hc
      exact ⟨by rw [ho]; rfl, hc⟩
  have hacc := accounts_all_present storeClient ns.Name
    (cl.serviceAccounts.filter (fun a => a.Namespace == ns.Name)) { cluster := cl, faults := [] }
    (by
      intro a ha2
      rw [List.mem_filter] at ha2
      exact ha a ha2.1 (by simpa using ha2.2))
  rcases body_cases storeClient cfg ns { cluster := cl, faults := [] } with
    ⟨e, w1, hen, -⟩ | ⟨m, w1, hen, -⟩ | ⟨w1, e, w2, hen, hl2, -⟩ |
    ⟨w1, accts, w2, hen, hl2, hb, hc⟩
  · rw [hens.1] at hen; cases hen
  · rw [hens.1] at hen; cases hen
  · rw [hens.1] at hen
    simp only [Prod.mk.injEq, true_and] at hen
    subst hen
    rw [hlist] at hl2
    cases hl2
  · rw [hens.1] at hen
    simp only [Prod.mk.injEq, true_and] at hen
    subst hen
    rw [hlist] at hl2
    simp only [Prod.mk.injEq, Result.ok.injEq] at hl2
    obtain ⟨hacc1, hw2⟩ := hl2
    subst hacc1
    subst hw2
    rw [hb, hc, hacc.1, hacc.2, hens.2]
    refine ⟨rfl, ?_⟩
    intro call hcall
    simp at hcall
    rcases hcall with rfl | rfl | rfl <;> exact ⟨rfl, rfl⟩

theorem namespaces_store_idle (f : String → Bool) (cfg : Bytes) (cl : Cluster)
    (items : List Namespace)
    (h : ∀ ns ∈ items, f ns.Name = true → cl.Settled ns.Name cfg ∧ cl.AllPatched ns.Name) :
    SetupImagePullCreds.namespaces storeClient f cfg items { cluster := cl, faults := [] } =
        (.ok (), { cluster := cl, faults := [] }) ∧
      ∀ call ∈ namespacesCalls storeClient f cfg items { cluster := cl, faults := [] },
        call.accountUpdate? = none ∧ call.secretCreate? = none := by
  induction items with
  | nil =>
    refine ⟨rfl, ?_⟩
    intro call hcall
    simp [namespacesCalls, SetupImagePullCreds.namespaces] at hcall
  | cons ns rest ih =>
    have ihr := ih (fun x hx hfx => h x (List.mem_cons_of_mem _ hx) hfx)
    cases hf : f ns.Name with
    | false =>
      rw [namespaces_skip storeClient f cfg ns rest _ hf,
        namespacesCalls_skip storeClient f cfg ns rest _ hf]
      exact ihr
    | true =>
      obtain ⟨hs, ha⟩ := h ns (List.mem_cons_self _ _) hf
      obtain ⟨hb, hbc⟩ := body_store_idle cfg ns cl hs ha
      obtain ⟨hn, hc⟩ := namespaces_step_ok storeClient f cfg ns rest _ _ hf hb
      rw [hn, hc]
      refine ⟨ihr.1, ?_⟩
      intro call hcall
      rcases List.mem_append.mp hcall with hm | hm
      · exact hbc call hm
      · exact ihr.2 call hm

theorem provided?_of_target (call : Call) (n : String) (h : call.target? = some n) :
    call.provided? = none := by
  cases call <;> simp [Call.target?, Call.provided?] at h ⊢

/-- C7: start from any cluster and any failure schedule, with a provider that returns
`payload`; if `SetupImagePullCreds` succeeds and is run again on the resulting cluster
with the same request and the same payload and no injected failure, the second run
succeeds, leaves the cluster exactly as the first run left it, and its log holds no
secret create call and no service-account update call. -/
theorem setup_idempotent (env : ClientEnv Store) (req : SetupImagePullCredsReqeust)
    (payload : Bytes) (c0 : Cluster) (faults : List (Option Error)) (st1 : Store)
    (henv : newClient env = .ok storeClient)
    (hrun1 : SetupImagePullCreds (NewService { Provider := Provider.fixed (.ok payload) }) env req
      { cluster := c0, faults := faults } = (.ok {}, st1)) :
    ∃ log2,
      SetupImagePullCreds (NewService { Provider := Provider.fixed (.ok payload) }).traced
          env.traced req ({ cluster := st1.cluster, faults := [] }, []) =
        (.ok {}, { cluster := st1.cluster, faults := [] }, log2) ∧
      log2.filterMap Call.accountUpdate? = [] ∧ log2.filterMap Call.secretCreate? = [] := by
  obtain ⟨cfg, w1, w2, hprov, -, hw2, hn, -⟩ := setup_store_ok _ env req _ st1 henv hrun1
  have hprov2 : payload = cfg ∧ ({ cluster := c0, faults := faults } : Store) = w1 := by
    simpa [NewService, Provider.fixed] using hprov
  obtain ⟨hcfg, hw1⟩ := hprov2
  subst hcfg
  subst hw1
  obtain ⟨hns, hsettled, -, -⟩ := namespaces_store_settled _ payload _ w2 st1 hn
  have hns1 : st1.cluster.namespaces = c0.namespaces := by rw [hns, hw2]
  have hidle := namespaces_store_idle
    (SetupImagePullCreds.nsFilter (NewService { Provider := Provider.fixed (.ok payload) }) req)
    payload st1.cluster st1.cluster.namespaces (by
      intro ns hmem hf
      rw [hns1] at hmem
      exact hsettled ns hmem hf)
  refine ⟨setupCalls (NewService { Provider := Provider.fixed (.ok payload) }) env req
    { cluster := st1.cluster, faults := [] }, ?_, ?_⟩
  · rw [setup_traced]
    simp only [List.nil_append]
    rcases setup_cases (NewService { Provider := Provider.fixed (.ok payload) }) env req
        { cluster := st1.cluster, faults := [] } with ⟨e, hc, -⟩ | ⟨c, e, w1, -, hp, -⟩ |
      ⟨c, cfg, w1, e, w2, hc, hp, hl, -⟩ | ⟨c, cfg, w1, items, w2, hc, hp, hl, ho, -⟩
    · rw [henv] at hc; cases hc
    · simp [NewService, Provider.fixed] at hp
    · rw [henv] at hc
      simp only [Result.ok.injEq] at hc
      subst hc
      have hp2 : payload = cfg ∧ ({ cluster := st1.cluster, faults := [] } : Store) = w1 := by
        simpa [NewService, Provider.fixed] using hp
      rw [← hp2.2] at hl
      cases hl
    · rw [henv] at hc
      simp only [Result.ok.injEq] at hc
      subst hc
      have hp2 : payload = cfg ∧ ({ cluster := st1.cluster, faults := [] } : Store) = w1 := by
        simpa [NewService, Provider.fixed] using hp
      obtain ⟨hcfg, hw1⟩ := hp2
      subst hcfg
      subst hw1
      have hl2 : storeClient.NamespacesList { cluster := st1.cluster, faults := [] } =
          (.ok st1.cluster.namespaces, { cluster := st1.cluster, faults := [] }) := rfl
      rw [hl2] at hl
      simp only [Prod.mk.injEq, Result.ok.injEq] at hl
      obtain ⟨hitems, hw2'⟩ := hl
      subst hitems
      subst hw2'
      rw [ho, hidle.1]
      rfl
  · rcases setup_cases (NewService { Provider := Provider.fixed (.ok payload) }) env req
        { cluster := st1.cluster, faults := [] } with ⟨e, -, -, hcalls⟩ |
      ⟨c, e, w1, -, -, -, hcalls⟩ | ⟨c, cfg, w1, e, w2, -, -, -, -, hcalls⟩ |
      ⟨c, cfg, w1, items, w2, hc, hp, hl, -, hcalls⟩
    · rw [hcalls]; exact ⟨rfl, rfl⟩
    · rw [hcalls]; exact ⟨rfl, rfl⟩
    · rw [hcalls]; exact ⟨rfl, rfl⟩
    · rw [henv] at hc
      simp only [Result.ok.injEq] at hc
      subst hc
      have hp2 : payload = cfg ∧ ({ cluster := st1.cluster, faults := [] } : Store) = w1 := by
        simpa [NewService, Provider.fixed] using hp
      obtain ⟨hcfg, hw1⟩ := hp2
      subst hcfg
      subst hw1
      have hl2 : storeClient.NamespacesList { cluster := st1.cluster, faults := [] } =
          (.ok st1.cluster.namespaces, { cluster := st1.cluster, faults := [] }) := rfl
      rw [hl2] at hl
      simp only [Prod.mk.injEq, Result.ok.injEq] at hl
      obtain ⟨hitems, hw2'⟩ := hl
      subst hitems
      subst hw2'
      rw [hcalls]
      constructor
      · rw [List.filterMap_eq_nil_iff]
        intro call hcall
        rcases List.mem_append.mp hcall with hm | hm
        · simp at hm
          rcases hm with rfl | rfl <;> rfl
        · exact (hidle.2 call hm).1
      · rw [List.filterMap_eq_nil_iff]
        intro call hcall
        rcases List.mem_append.mp hcall with hm | hm
        · simp at hm
          rcases hm with rfl | rfl <;> rfl
        · exact (hidle.2 call hm).2

/-- C9: after a run on the cluster store that returns success, the log holds exactly one
provider call, which returned some payload, and the namespace listing; and every listed
namespace the filter accepts holds a secret named `auto-image-pull-creds`, every such
secret of that namespace having a `.dockercfg` entry equal to that one payload. -/
theorem setup_secret_convergence (s : Service Store) (env : ClientEnv Store)
    (req : SetupImagePullCredsReqeust) (st st' : Store) (log : List Call)
    (henv : newClient env = .ok storeClient)
    (hrun : SetupImagePullCreds s.traced env.traced req (st, []) = (.ok {}, st', log)) :
    ∃ payload, log.filterMap Call.provided? = [.ok payload] ∧
      Call.NamespacesList (.ok st'.cluster.namespaces) ∈ log ∧
      ∀ ns ∈ st'.cluster.namespaces, SetupImagePullCreds.nsFilter s req ns.Name = true →
        (∃ sec ∈ st'.cluster.secrets,
          sec.Namespace = ns.Name ∧ sec.Name = "auto-image-pull-creds") ∧
        ∀ sec ∈ st'.cluster.secrets, sec.Namespace = ns.Name →
          sec.Name = "auto-image-pull-creds" →
          ∃ d, sec.Data = some d ∧ mapLookup d ".dockercfg" = some payload := by
  rw [setup_traced] at hrun
  simp only [List.nil_append, Prod.mk.injEq] at hrun
  obtain ⟨hout, hst, hlog⟩ := hrun
  have hrun2 : SetupImagePullCreds s env req st = (.ok {}, st') := Prod.ext hout hst
  obtain ⟨cfg, w1, w2, -, -, hw2, hn, hcalls⟩ := setup_store_ok s env req st st' henv hrun2
  obtain ⟨hns, hsettled, -, -⟩ := namespaces_store_settled _ cfg _ w2 st' hn
  have hns' : st'.cluster.namespaces = w1.cluster.namespaces := by rw [hns, hw2]
  have hlog2 : log = [Call.CreateDockerCFG (.ok cfg),
      Call.NamespacesList (.ok w1.cluster.namespaces)] ++
      namespacesCalls storeClient (SetupImagePullCreds.nsFilter s req) cfg
        w1.cluster.namespaces w2 := by
    rw [← hlog]; exact hcalls
  refine ⟨cfg, ?_, ?_, ?_⟩
  · rw [hlog2, List.filterMap_append]
    have : (namespacesCalls storeClient (SetupImagePullCreds.nsFilter s req) cfg
        w1.cluster.namespaces w2).filterMap Call.provided? = [] := by
      rw [List.filterMap_eq_nil_iff]
      intro call hcall
      obtain ⟨n, h1, -, -⟩ := (namespacesCalls_reads storeClient _ cfg _ w2).1 call hcall
      exact provided?_of_target call n h1
    rw [this]
    rfl
  · rw [hlog2, hns']
    simp
  · intro ns hmem hf
    rw [hns'] at hmem
    obtain ⟨sec, d, hfind, hd, hl, hall⟩ := (hsettled ns hmem hf).1
    have hkey : Secret.hasKey ns.Name imagePullSecretName sec = true := List.find?_some hfind
    simp only [Secret.hasKey, Bool.and_eq_true, beq_iff_eq] at hkey
    refine ⟨⟨sec, List.mem_of_find?_eq_some hfind, hkey.1, hkey.2⟩, ?_⟩
    intro x hx hxns hxname
    have : x = sec := by
      apply hall x hx
      simp only [Secret.hasKey, Bool.and_eq_true, beq_iff_eq]
      exact ⟨hxns, hxname⟩
    subst this
    exact ⟨d, hd, hl⟩

/-! ### The cluster is the replay of the log -/

theorem replay_append (c : Cluster) (l1 l2 : List Call) :
    c.replay (l1 ++ l2) = (c.replay l1).replay l2 := by
  simp [Cluster.replay, List.foldl_append]

theorem createSecret_err (ns : String) (obj : Secret) (c : Cluster) (e : Error)
    (h : (Cluster.createSecret ns obj c).1 = .err e) : (Cluster.createSecret ns obj c).2 = c := by
  unfold Cluster.createSecret at h ⊢
  split
  · rfl
  · split
    · rfl
    · rename_i h1 h2
      simp [h1, h2] at h

theorem updateSecret_err (ns : String) (obj : Secret) (c : Cluster) (e : Error)
    (h : (Cluster.updateSecret ns obj c).1 = .err e) : (Cluster.updateSecret ns obj c).2 = c := by
  unfold Cluster.updateSecret at h ⊢
  split
  · rfl
  · split
    · rename_i h1 h2
      simp [h1, h2] at h
    · rfl

theorem updateServiceAccount_err (ns : String) (obj : ServiceAccount) (c : Cluster) (e : Error)
    (h : (Cluster.updateServiceAccount ns obj c).1 = .err e) :
    (Cluster.updateServiceAccount ns obj c).2 = c := by
  unfold Cluster.updateServiceAccount at h ⊢
  split
  · rfl
  · split
    · rename_i h1 h2
      simp [h1, h2] at h
    · rfl

theorem store_SecretsGet_apply (ns name : String) (s : Store) :
    (storeClient.SecretsGet ns name s).2.cluster =
      (Call.SecretsGet ns name (storeClient.SecretsGet ns name s).1).apply s.cluster :=
  (store_SecretsGet ns name s).1

theorem store_ServiceAccountsList_apply (ns : String) (s : Store) :
    (storeClient.ServiceAccountsList ns s).2.cluster =
      (Call.ServiceAccountsList ns (storeClient.ServiceAccountsList ns s).1).apply s.cluster :=
  (store_ServiceAccountsList ns s).1

theorem store_NamespacesList_apply (s : Store) :
    (storeClient.NamespacesList s).2.cluster =
      (Call.NamespacesList (storeClient.NamespacesList s).1).apply s.cluster :=
  (store_NamespacesList s).1

theorem store_SecretsCreate_apply (ns : String) (obj : Secret) (s : Store) :
    (storeClient.SecretsCreate ns obj s).2.cluster =
      (Call.SecretsCreate ns obj (storeClient.SecretsCreate ns obj s).1).apply s.cluster := by
  rcases store_call_cases (Cluster.createSecret ns obj) s with ⟨e, h1, h2⟩ | ⟨h1, h2⟩
  · change (storeClient.SecretsCreate ns obj s).1 = _ at h1
    change (storeClient.SecretsCreate ns obj s).2.cluster = _ at h2
    rw [h1, h2]; rfl
  · change (storeClient.SecretsCreate ns obj s).1 = _ at h1
    change (storeClient.SecretsCreate ns obj s).2.cluster = _ at h2
    rw [h1, h2]
    cases hr : (Cluster.createSecret ns obj s.cluster).1 with
    | ok v => rfl
    | err e => exact createSecret_err ns obj s.cluster e hr

theorem store_SecretsUpdate_apply (ns : String) (obj : Secret) (s : Store) :
    (storeClient.SecretsUpdate ns obj s).2.cluster =
      (Call.SecretsUpdate ns obj (storeClient.SecretsUpdate ns obj s).1).apply s.cluster := by
  rcases store_call_cases (Cluster.updateSecret ns obj) s with ⟨e, h1, h2⟩ | ⟨h1, h2⟩
  · change (storeClient.SecretsUpdate ns obj s).1 = _ at h1
    change (storeClient.SecretsUpdate ns obj s).2.cluster = _ at h2
    rw [h1, h2]; rfl
  · change (storeClient.SecretsUpdate ns obj s).1 = _ at h1
    change (storeClient.SecretsUpdate ns obj s).2.cluster = _ at h2
    rw [h1, h2]
    cases hr : (Cluster.updateSecret ns obj s.cluster).1 with
    | ok v => rfl
    | err e => exact updateSecret_err ns obj s.cluster e hr

theorem store_ServiceAccountsUpdate_apply (ns : String) (obj : ServiceAccount) (s : Store) :
    (storeClient.ServiceAccountsUpdate ns obj s).2.cluster =
      (Call.ServiceAccountsUpdate ns obj
        (storeClient.ServiceAccountsUpdate ns obj s).1).apply s.cluster := by
  rcases store_call_cases (Cluster.updateServiceAccount ns obj) s with ⟨e, h1, h2⟩ | ⟨h1, h2⟩
  · change (storeClient.ServiceAccountsUpdate ns obj s).1 = _ at h1
    change (storeClient.ServiceAccountsUpdate ns obj s).2.cluster = _ at h2
    rw [h1, h2]; rfl
  · change (storeClient.ServiceAccountsUpdate ns obj s).1 = _ at h1
    change (storeClient.ServiceAccountsUpdate ns obj s).2.cluster = _ at h2
    rw [h1, h2]
    cases hr : (Cluster.updateServiceAccount ns obj s.cluster).1 with
    | ok v => rfl
    | err e => exact updateServiceAccount_err ns obj s.cluster e hr

theorem ensure_replay (ns : Namespace) (cfg : Bytes) (s : Store) :
    (ensureImagePullSecret storeClient ns cfg s).2.cluster =
      s.cluster.replay (ensureCalls storeClient ns cfg s) := by
  have hg := store_SecretsGet_apply ns.Name imagePullSecretName s
  rcases ensure_cases storeClient ns cfg s with ⟨e, w1, hget, -, ho, hc⟩ |
    ⟨e, w1, r, w2, hget, -, hcr, ho, hc⟩ | ⟨ex, w1, hget, -, ho, hc⟩ |
    ⟨ex, d, w1, r, w2, hget, -, hup, ho, hc⟩
  · rw [ho, hc]; rw [hget] at hg; exact hg
  · rw [ho, hc]; rw [hget] at hg
    have hcr2 := store_SecretsCreate_apply ns.Name (newPullSecret ns.Name cfg) w1
    rw [hcr] at hcr2
    simp only at hg hcr2
    rw [hcr2, hg]
    rfl
  · rw [ho, hc]; rw [hget] at hg; exact hg
  · rw [ho, hc]; rw [hget] at hg
    have hup2 := store_SecretsUpdate_apply ns.Name (updatedPullSecret ex d cfg) w1
    rw [hup] at hup2
    simp only at hg hup2
    rw [hup2, hg]
    rfl

theorem accounts_replay (n : String) (accts : List ServiceAccount) :
    ∀ (s : Store), (SetupImagePullCreds.accounts storeClient n accts s).2.cluster =
      s.cluster.replay (accountsCalls storeClient n accts s) := by
  induction accts with
  | nil => intro s; rfl
  | cons a rest ih =>
    intro s
    cases hhas : hasPullSecret a with
    | true =>
      rw [accounts_skip storeClient n a rest s hhas, accountsCalls_skip storeClient n a rest s hhas]
      exact ih s
    | false =>
      rw [accounts_update storeClient n a rest s hhas,
        accountsCalls_update storeClient n a rest s hhas]
      have hu := store_ServiceAccountsUpdate_apply n (addPullSecret a) s
      rcases hup : storeClient.ServiceAccountsUpdate n (addPullSecret a) s with ⟨r, s1⟩
      rw [hup] at hu
      simp only at hu
      cases r with
      | err e => simp only; rw [hu]; rfl
      | ok v =>
        simp only
        rw [ih s1, hu]
        rfl

theorem body_replay (cfg : Bytes) (ns : Namespace) (s : Store) :
    (SetupImagePullCreds.namespaceBody storeClient cfg ns s).2.cluster =
      s.cluster.replay (bodyCalls storeClient cfg ns s) := by
  have he := ensure_replay ns cfg s
  rcases body_cases storeClient cfg ns s with ⟨e, w1, hen, hb, hc⟩ | ⟨m, w1, hen, hb, hc⟩ |
    ⟨w1, e, w2, hen, hl, hb, hc⟩ | ⟨w1, accts, w2, hen, hl, hb, hc⟩
  · rw [hb, hc]; rw [hen] at he; exact he
  · rw [hb, hc]; rw [hen] at he; exact he
  · rw [hb, hc, replay_append]; rw [hen] at he
    simp only at he
    rw [← he]
    have hls := store_ServiceAccountsList_apply ns.Name w1
    rw [hl] at hls
    exact hls
  · rw [hb, hc, replay_append, replay_append]; rw [hen] at he
    simp only at he
    rw [← he, accounts_replay]
    have hls := store_ServiceAccountsList_apply ns.Name w1
    rw [hl] at hls
    simp only at hls
    rw [hls]
    rfl

theorem namespaces_replay (f : String → Bool) (cfg : Bytes) (items : List Namespace) :
    ∀ (s : Store), (SetupImagePullCreds.namespaces storeClient f cfg items s).2.cluster =
      s.cluster.replay (namespacesCalls storeClient f cfg items s) := by
  induction items with
  | nil => intro s; rfl
  | cons ns rest ih =>
    intro s
    cases hf : f ns.Name with
    | false =>
      rw [namespaces_skip storeClient f cfg ns rest s hf,
        namespacesCalls_skip storeClient f cfg ns rest s hf]
      exact ih s
    | true =>
      have hbr := body_replay cfg ns s
      rcases hb : SetupImagePullCreds.namespaceBody storeClient cfg ns s with ⟨r, s1⟩
      rw [hb] at hbr
      simp only at hbr
      cases r with
      | ok u =>
        obtain ⟨hn, hc⟩ := namespaces_step_ok storeClient f cfg ns rest s s1 hf hb
        rw [hn, hc, replay_append, ih s1, hbr]
      | error e =>
        obtain ⟨hn, hc⟩ := namespaces_step_error storeClient f cfg ns rest s s1 e hf hb
        rw [hn, hc]
        exact hbr
      | panic m =>
        obtain ⟨hn, hc⟩ := namespaces_step_panic storeClient f cfg ns rest s s1 m hf hb
        rw [hn, hc]
        exact hbr

theorem setup_replay (s : Service Store) (env : ClientEnv Store)
    (req : SetupImagePullCredsReqeust) (st : Store)
    (henv : newClient env = .ok storeClient)
    (hp : ∀ w, (s.provider.CreateDockerCFG w).2.cluster = w.cluster) :
    (SetupImagePullCreds s env req st).2.cluster =
      st.cluster.replay (setupCalls s env req st) := by
  rcases setup_cases s env req st with ⟨e, -, ho, hc⟩ | ⟨c, e, w1, -, hprov, ho, hc⟩ |
    ⟨c, cfg, w1, e, w2, hcl, hprov, hl, ho, hc⟩ | ⟨c, cfg, w1, items, w2, hcl, hprov, hl, ho, hc⟩
  · rw [ho, hc]; rfl
  · rw [ho, hc]
    have := hp st
    rw [hprov] at this
    exact this
  · rw [henv] at hcl
    simp only [Result.ok.injEq] at hcl
    subst hcl
    rw [ho, hc]
    have h1 := hp st
    rw [hprov] at h1
    have h2 := store_NamespacesList_apply w1
    rw [hl] at h2
    simp only at h1 h2
    rw [h2, h1]
    rfl
  · rw [henv] at hcl
    simp only [Result.ok.injEq] at hcl
    subst hcl
    rw [ho, hc, replay_append]
    have h1 := hp st
    rw [hprov] at h1
    have h2 := store_NamespacesList_apply w1
    rw [hl] at h2
    simp only at h1 h2
    rw [namespaces_replay, h2, h1]
    rfl

theorem apply_of_failed (call : Call) (c : Cluster) (h : call.failed = true) :
    call.apply c = c := by
  cases call with
  | CreateDockerCFG r => rfl
  | NamespacesList r => rfl
  | SecretsGet ns name r => rfl
  | SecretsCreate ns obj r => cases r <;> simp [Call.failed, Call.apply] at h ⊢
  | SecretsUpdate ns obj r => cases r <;> simp [Call.failed, Call.apply] at h ⊢
  | ServiceAccountsList ns r => rfl
  | ServiceAccountsUpdate ns obj r => cases r <;> simp [Call.failed, Call.apply] at h ⊢

theorem not_failed_of_abortsWith_none (call : Call) (h : call.abortsWith = none) :
    call.failed = false := by
  cases hf : call.failed with
  | false => rfl
  | true => exact absurd h ((failed_iff_abortsWith call).mp hf)

/-- C8: run `SetupImagePullCreds` on the cluster store under any failure schedule, with a
provider that does not touch the cluster.  If some call of the run fails (a secret read
that reports "not found" is not a failure), then the run returns an error, the failed
call is the last call of the log (so nothing is issued afterwards: no call for a later
service account or a later namespace), no earlier call failed, and the cluster the run
leaves is the initial cluster with the successful writes made before the failed call
applied in order: none of them is undone. -/
theorem setup_stops_at_first_failure (s : Service Store) (env : ClientEnv Store)
    (req : SetupImagePullCredsReqeust) (st : Store)
    (henv : newClient env = .ok storeClient)
    (hp : ∀ w, (s.provider.CreateDockerCFG w).2.cluster = w.cluster)
    (i : Nat) (call : Call)
    (hcall : (SetupImagePullCreds s.traced env.traced req (st, [])).2.2[i]? = some call)
    (hfail : call.failed = true) :
    (∃ e, (SetupImagePullCreds s.traced env.traced req (st, [])).1 = .error e) ∧
    (SetupImagePullCreds s.traced env.traced req (st, [])).2.2.length = i + 1 ∧
    (∀ j call', j < i →
      (SetupImagePullCreds s.traced env.traced req (st, [])).2.2[j]? = some call' →
      call'.failed = false) ∧
    (SetupImagePullCreds s.traced env.traced req (st, [])).2.1.cluster =
      st.cluster.replay ((SetupImagePullCreds s.traced env.traced req (st, [])).2.2.take i) := by
  have hlog : (SetupImagePullCreds s.traced env.traced req (st, [])).2.2 =
      setupCalls s env req st := rfl
  have hout : (SetupImagePullCreds s.traced env.traced req (st, [])).1 =
      (SetupImagePullCreds s env req st).1 := by rw [setup_traced]
  have hst : (SetupImagePullCreds s.traced env.traced req (st, [])).2.1 =
      (SetupImagePullCreds s env req st).2 := by rw [setup_traced]
  rw [hlog] at hcall ⊢
  rw [hout, hst, setup_replay s env req st henv hp]
  have hab := setup_abortLog s env req st storeClient henv
  have hne : call.abortsWith ≠ none := (failed_iff_abortsWith call).mp hfail
  cases ho : (SetupImagePullCreds s env req st).1 with
  | ok v =>
    rw [ho] at hab
    exact absurd (hab call (List.getElem?_mem hcall)) hne
  | panic m =>
    rw [ho] at hab
    exact absurd (hab call (List.getElem?_mem hcall)) hne
  | error e =>
    rw [ho] at hab
    obtain ⟨pre, last, hl, hpre, hlast⟩ := hab
    rw [hl] at hcall ⊢
    have hi : i = pre.length := by
      by_cases hlt : i < pre.length
      · rw [List.getElem?_append_left hlt] at hcall
        exact absurd (hpre call (List.getElem?_mem hcall)) hne
      · have hge : pre.length ≤ i := Nat.le_of_not_lt hlt
        rw [List.getElem?_append_right hge] at hcall
        have hlen : i - pre.length < [last].length := by
          rcases List.getElem?_eq_some.mp hcall with ⟨h, -⟩
          exact h
        simp only [List.length_singleton] at hlen
        omega
    subst hi
    have hlast_eq : last = call := by
      rw [List.getElem?_append_right (Nat.le_refl _)] at hcall
      simpa using hcall
    subst hlast_eq
    refine ⟨⟨e, rfl⟩, by simp, ?_, ?_⟩
    · intro j call' hj hc'
      rw [List.getElem?_append_left hj] at hc'
      exact not_failed_of_abortsWith_none call' (hpre call' (List.getElem?_mem hc'))
    · rw [replay_append, List.take_left']
      · simp only [Cluster.replay, List.foldl_cons, List.foldl_nil]
        exact apply_of_failed _ _ hfail
      · rfl

/-- Witness for C6: the run without allow-list over `Example.fresh` succeeds and leaves
`Example.freshDone`. -/
theorem setup_account_references_witness :
    Example.freshStore.cluster.UniqueAccounts ∧
    SetupImagePullCreds Example.service Example.env Example.noList Example.freshStore =
      (.ok {}, Example.freshDone) ∧
    Example.freshDone.cluster.serviceAccounts.length =
      Example.freshStore.cluster.serviceAccounts.length ∧
    ∀ (i : Nat) (a : ServiceAccount), Example.freshStore.cluster.serviceAccounts[i]? = some a →
      a.Namespace ∈ Example.freshStore.cluster.namespaces.map (fun ns => ns.Name) →
      SetupImagePullCreds.nsFilter Example.service Example.noList a.Namespace = true →
      ∃ a', Example.freshDone.cluster.serviceAccounts[i]? = some a' ∧
        a'.Name = a.Name ∧ a'.Namespace = a.Namespace ∧ a'.Labels = a.Labels ∧
        a'.Secrets = a.Secrets ∧
        a'.AutomountServiceAccountToken = a.AutomountServiceAccountToken ∧
        (((∃ r ∈ a.ImagePullSecrets, r.Name = "auto-image-pull-creds") ∧
            a'.ImagePullSecrets = a.ImagePullSecrets) ∨
          ((∀ r ∈ a.ImagePullSecrets, r.Name ≠ "auto-image-pull-creds") ∧
            a'.ImagePullSecrets =
              a.ImagePullSecrets ++ [{ Name := "auto-image-pull-creds" }])) ∧
        a'.ImagePullSecrets.count { Name := "auto-image-pull-creds" } =
          max 1 (a.ImagePullSecrets.count { Name := "auto-image-pull-creds" }) :=
  ⟨by decide, by decide,
    setup_account_references Example.service Example.env Example.noList Example.freshStore
      Example.freshDone rfl (fun _ => rfl) (by decide) (by decide)⟩

/-- Witness for C7: the first run over `Example.fresh` succeeds and leaves
`Example.freshDone`; the second run changes nothing. -/
theorem setup_idempotent_witness :
    SetupImagePullCreds (NewService { Provider := Provider.fixed (.ok [1, 2]) }) Example.env
        Example.noList { cluster := Example.fresh, faults := [] } =
      (.ok {}, Example.freshDone) ∧
    ∃ log2,
      SetupImagePullCreds (NewService { Provider := Provider.fixed (.ok [1, 2]) }).traced
          Example.env.traced Example.noList
          ({ cluster := Example.freshDone.cluster, faults := [] }, []) =
        (.ok {}, { cluster := Example.freshDone.cluster, faults := [] }, log2) ∧
      log2.filterMap Call.accountUpdate? = [] ∧ log2.filterMap Call.secretCreate? = [] :=
  ⟨by decide,
    setup_idempotent Example.env Example.noList [1, 2] Example.fresh [] Example.freshDone rfl
      (by decide)⟩

/-- Witness for C8: `default` is reconciled, then the secret create in `team-a` fails; it is
the eighth and last call of the log. -/
theorem setup_stops_at_first_failure_witness :
    (SetupImagePullCreds Example.service.traced Example.env.traced Example.noList
        (Example.failingStore, [])).2.2[7]? = some Example.failedCreate ∧
    Example.failedCreate.failed = true ∧
    (∃ e, (SetupImagePullCreds Example.service.traced Example.env.traced Example.noList
        (Example.failingStore, [])).1 = .error e) ∧
    (SetupImagePullCreds Example.service.traced Example.env.traced Example.noList
        (Example.failingStore, [])).2.2.length = 7 + 1 ∧
    (∀ j call', j < 7 →
      (SetupImagePullCreds Example.service.traced Example.env.traced Example.noList
        (Example.failingStore, [])).2.2[j]? = some call' →
      call'.failed = false) ∧
    (SetupImagePullCreds Example.service.traced Example.env.traced Example.noList
        (Example.failingStore, [])).2.1.cluster =
      Example.failingStore.cluster.replay
        ((SetupImagePullCreds Example.service.traced Example.env.traced Example.noList
          (Example.failingStore, [])).2.2.take 7) :=
  ⟨by decide, by decide,
    setup_stops_at_first_failure Example.service Example.env Example.noList
      Example.failingStore rfl (fun _ => rfl) 7 Example.failedCreate (by decide) (by decide)⟩

/-- Witness for C9: the run without allow-list over `Example.fresh` succeeds with payload
`[1, 2]`. -/
theorem setup_secret_convergence_witness :
    SetupImagePullCreds Example.service.traced Example.env.traced Example.noList
        (Example.freshStore, []) = (.ok {}, Example.freshDone, Example.freshLog) ∧
    ∃ payload, Example.freshLog.filterMap Call.provided? = [.ok payload] ∧
      Call.NamespacesList (.ok Example.freshDone.cluster.namespaces) ∈ Example.freshLog ∧
      ∀ ns ∈ Example.freshDone.cluster.namespaces,
        SetupImagePullCreds.nsFilter Example.service Example.noList ns.Name = true →
        (∃ sec ∈ Example.freshDone.cluster.secrets,
          sec.Namespace = ns.Name ∧ sec.Name = "auto-image-pull-creds") ∧
        ∀ sec ∈ Example.freshDone.cluster.secrets, sec.Namespace = ns.Name →
          sec.Name = "auto-image-pull-creds" →
          ∃ d, sec.Data = some d ∧ mapLookup d ".dockercfg" = some payload :=
  ⟨by decide,
    setup_secret_convergence Example.service Example.env Example.noList Example.freshStore
      Example.freshDone Example.freshLog rfl (by decide)⟩

/-- The part of C2 the code does satisfy: when the read returns an existing secret whose
`Data` map is not nil, `ensureImagePullSecret` issues the read and then exactly one update
call (no create); the submitted object has the name, namespace, type, labels and
annotations of the existing secret, its `.dockercfg` entry is the payload and every other
data key reads as before. -/
theorem ensureImagePullSecret_existing_updates (c : Client σ) (namespace_ : Namespace)
    (payload : Bytes) (w w1 : σ) (log : List Call) (existing : Secret) (data : Entries)
    (hget : c.SecretsGet namespace_.Name "auto-image-pull-creds" w = (.ok existing, w1))
    (hdata : existing.Data = some data) :
    ∃ (submitted : Secret) (data' : Entries) (res : Result Secret) (w2 : σ) (out : Outcome Unit),
      submitted.Name = existing.Name ∧ submitted.Namespace = existing.Namespace ∧
      submitted.Type_ = existing.Type_ ∧ submitted.Labels = existing.Labels ∧
      submitted.Annotations = existing.Annotations ∧ submitted.Data = some data' ∧
      mapLookup data' ".dockercfg" = some payload ∧
      (∀ k, k ≠ ".dockercfg" → mapLookup data' k = mapLookup data k) ∧
      c.SecretsUpdate namespace_.Name submitted w1 = (res, w2) ∧
      ensureImagePullSecret c.traced namespace_ payload (w, log) =
        (out, w2, log ++ [Call.SecretsGet namespace_.Name "auto-image-pull-creds" (.ok existing),
          Call.SecretsUpdate namespace_.Name submitted res]) ∧
      (out = .ok () ↔ ∃ v, res = .ok v) := by
  rcases hup : c.SecretsUpdate namespace_.Name (updatedPullSecret existing data payload) w1 with
    ⟨res, w2⟩
  have hup2 := hup
  unfold updatedPullSecret at hup2
  cases res with
  | ok v =>
    refine ⟨updatedPullSecret existing data payload, mapAssign data ".dockercfg" payload,
      .ok v, w2, .ok (), rfl, rfl, rfl, rfl, rfl, rfl, mapLookup_mapAssign _ _ _,
      fun k hk => mapLookup_mapAssign_ne _ _ _ _ hk, hup, ?_, by simp⟩
    simp [ensureImagePullSecret, imagePullSecretName, hget, hdata, hup2, updatedPullSecret]
  | err e =>
    refine ⟨updatedPullSecret existing data payload, mapAssign data ".dockercfg" payload,
      .err e, w2, .error (Errorf "error updating secret" e), rfl, rfl, rfl, rfl, rfl, rfl,
      mapLookup_mapAssign _ _ _, fun k hk => mapLookup_mapAssign_ne _ _ _ _ hk, hup, ?_,
      by simp⟩
    simp [ensureImagePullSecret, imagePullSecretName, hget, hdata, hup2, updatedPullSecret]

/-- C1 applied to `Example.fresh`: with the allow-list `["kube-system", "absent"]` the
secret step runs for `kube-system` only, although it is in the ignore-set; without an
allow-list it runs for `default` and `team-a` and not for `kube-system`. -/
theorem setup_processes_exactly_in_scope_witness :
    (SetupImagePullCreds (NewService { Provider := Provider.fixed (.ok [1, 2]) }).traced
        Example.env.traced Example.allowKubeSystem (Example.freshStore, [])).2.2.filterMap
          Call.secretGet? = ["kube-system"] ∧
    (SetupImagePullCreds (NewService { Provider := Provider.fixed (.ok [1, 2]) }).traced
        Example.env.traced Example.noList (Example.freshStore, [])).2.2.filterMap
          Call.accountList? = ["default", "team-a"] :=
  ⟨((((setup_processes_exactly_in_scope { Provider := Provider.fixed (.ok [1, 2]) } Example.env
      Example.allowKubeSystem Example.freshStore).2.2 Example.fresh.namespaces
      (by decide)).2.2 (by decide)).1).trans (by decide),
    ((((setup_processes_exactly_in_scope { Provider := Provider.fixed (.ok [1, 2]) } Example.env
      Example.noList Example.freshStore).2.2 Example.fresh.namespaces
      (by decide)).2.2 (by decide)).2).trans (by decide)⟩

/-- C5 applied to `Example.accounts`: the loop completes and submits one update, for the
account `default`, with the reference appended after `other`; the account `ci`, which
holds the name already, is not submitted. -/
theorem accounts_updates_exactly_missing_witness :
    ∃ calls : List Call,
      (SetupImagePullCreds.accounts storeClient.traced "default" Example.accounts
        (Example.accountsStore, [])).2.2 = [] ++ calls ∧
      calls.filterMap Call.accountUpdate? =
        [("default",
          { Name := "default"
            Namespace := "default"
            ImagePullSecrets := [{ Name := "other" }, { Name := "auto-image-pull-creds" }] })] := by
  obtain ⟨calls, h1, -, -, h4⟩ := accounts_updates_exactly_missing storeClient "default"
    Example.accounts Example.accountsStore []
  exact ⟨calls, h1, (h4 (by decide)).trans (by decide)⟩

end ImagePullCreds
